import Mathlib

/-!
# Fusion: a Gillespie-style population simulation across isolations

A shallow embedding of `src/fusion` (unit_population.h, niche.h, isolation.h,
system.h, event.h, observer.h, director.h) and theorems about it.

Conventions of the embedding.

* A C++ `double` is an exact rational (`ℚ`): rounding of floating-point
  arithmetic is not modelled, so a sum `x + 1/10` always differs from `x`,
  which the double sum `x + 0.1` does not for a large `x`.  A C++ `int` is an
  `Int` (signed overflow is undefined in the source and is not modelled).
* The conversion `double → int` performed when a rate is stored into a
  `std::pair<int, …>` slot is `doubleToInt` (truncation toward zero).
* A `shared_ptr<Isolation>` handle is the index of the isolation in
  `System::isolations`.  A pointer to a `UnitPopulation` held by an event is
  the value it points to: the catalog is rebuilt by `computeEventRates`
  immediately before the one event sampled from it is executed, so the
  pointee is read in the state in which it was captured.
* The random generators are replaced by explicit draws (`Draws`) handed to the
  functions that consume them.
* Object lifetime is not modelled.  A catalog entry is the event value that
  `computeEventRates` constructs.  In the source each event is owned by a
  `make_shared` handle local to the loop body that builds it and the catalog
  keeps `get()` of that handle, so the event object is destroyed before
  `computeEventRates` returns.  What the loop does with a sampled event
  (`loopBody`, `runLoop`, `runPrefix`) is the dispatch as it is written,
  applied to the event that was built.
* Console output is not modelled.
-/

namespace Fusion

/-! ## unit_population.h -/

/-- The class `UnitPopulation`: its seven private members. -/
structure UnitPopulation where
  unitPopulationId : Int
  locationId : Int
  parentUnitId : Option Int
  intrinsicMutationRate : ℚ
  mobility : ℚ
  resourceUsePerNiche : List ℚ
  reproductivity : ℚ
deriving DecidableEq

namespace UnitPopulation

def getId (p : UnitPopulation) : Int := p.unitPopulationId
def getLocationId (p : UnitPopulation) : Int := p.locationId
def getParentUnitId (p : UnitPopulation) : Option Int := p.parentUnitId
def getMutationRate (p : UnitPopulation) : ℚ := p.intrinsicMutationRate
def getMobility (p : UnitPopulation) : ℚ := p.mobility
def getResourceUsePerNiche (p : UnitPopulation) : List ℚ := p.resourceUsePerNiche
def getReproductivity (p : UnitPopulation) : ℚ := p.reproductivity

def setLocationId (p : UnitPopulation) (newLocationId : Int) : UnitPopulation :=
  { p with locationId := newLocationId }
def setMutationRate (p : UnitPopulation) (newRate : ℚ) : UnitPopulation :=
  { p with intrinsicMutationRate := newRate }
def setMobility (p : UnitPopulation) (newMobility : ℚ) : UnitPopulation :=
  { p with mobility := newMobility }
def setResourceUsePerNiche (p : UnitPopulation) (resources : List ℚ) : UnitPopulation :=
  { p with resourceUsePerNiche := resources }
def setReproductivity (p : UnitPopulation) (newReproductionRate : ℚ) : UnitPopulation :=
  { p with reproductivity := newReproductionRate }

end UnitPopulation

/-! ## niche.h -/

/-- The struct `NicheDimension`. -/
structure NicheDimension where
  occupiedSpace : ℚ
  availableSpace : ℚ
deriving DecidableEq

/-- The class `NicheSpaces`: an index-addressed sequence of dimensions. -/
structure NicheSpaces where
  dimensions : List NicheDimension
deriving DecidableEq

namespace NicheSpaces

/-- The constructor `NicheSpaces(niches)`: one dimension per (occupied, available) pair. -/
def ofPairs (niches : List (ℚ × ℚ)) : NicheSpaces :=
  { dimensions := niches.map (fun niche => { occupiedSpace := niche.1, availableSpace := niche.2 }) }

def getNumberOfDimensions (n : NicheSpaces) : Nat := n.dimensions.length

/-- The method `getOccupiedSpace(index)`; `none` is the `std::out_of_range` exception. -/
def getOccupiedSpace (n : NicheSpaces) (index : Nat) : Option ℚ :=
  if h : index < n.dimensions.length then some (n.dimensions[index]).occupiedSpace else none

/-- The method `getAvailableSpace(index)`; `none` is the `std::out_of_range` exception. -/
def getAvailableSpace (n : NicheSpaces) (index : Nat) : Option ℚ :=
  if h : index < n.dimensions.length then some (n.dimensions[index]).availableSpace else none

/-- The method `setOccupiedSpace(index, occupied)`: the outcome (normal return or
the `std::out_of_range` exception) and the object afterwards. -/
def setOccupiedSpace (n : NicheSpaces) (index : Nat) (occupied : ℚ) :
    Except String Unit × NicheSpaces :=
  if index < n.dimensions.length then
    (Except.ok (),
      { dimensions := n.dimensions.modify (fun dim => { dim with occupiedSpace := occupied }) index })
  else (Except.error "Index out of bounds", n)

/-- The method `setAvailableSpace(index, available)`: the outcome and the object
afterwards. -/
def setAvailableSpace (n : NicheSpaces) (index : Nat) (available : ℚ) :
    Except String Unit × NicheSpaces :=
  if index < n.dimensions.length then
    (Except.ok (),
      { dimensions :=
          n.dimensions.modify (fun dim => { dim with availableSpace := available }) index })
  else (Except.error "Index out of bounds", n)

end NicheSpaces

/-! ## isolation.h -/

/-- The class `Isolation`: niche spaces and the resident populations. -/
structure Isolation where
  nicheSpaces : NicheSpaces
  unitPopulations : List UnitPopulation
deriving DecidableEq

namespace Isolation

/-- The method `addUnitPopulation`: `push_back` of a copy. -/
def addUnitPopulation (iso : Isolation) (population : UnitPopulation) : Isolation :=
  { iso with unitPopulations := iso.unitPopulations ++ [population] }

def getUnitPopulations (iso : Isolation) : List UnitPopulation := iso.unitPopulations

/-- Modelled from the spec: `Isolation::removeUnitPopulation(id)` is called by
`PopulationDeathEvent::execute` but its body is not among the sources.  The spec
says a Death "removes `p` from `i`'s resident list by id; no-op if id absent". -/
def removeUnitPopulation (iso : Isolation) (id : Int) : Isolation :=
  { iso with unitPopulations := iso.unitPopulations.filter (fun p => p.getId ≠ id) }

end Isolation

/-- Members of `Isolation` that event.h and system.h call but whose bodies are
not among the sources.  They act on one `Isolation` object (an `Isolation`
holds no reference to the `System`), so each is taken as a function on
`Isolation`; the theorems below hold for every choice.
* `nicheSpacesOfResources`: the conversion used by
  `std::make_shared<Isolation>(initialResources)` in `System::System`;
* `setResourceAvailability`: called by `ResourceAvailabilityChangeEvent::execute`;
* `setBarrierThreshold`: called by `BarrierThresholdChangeEvent::execute`;
* `doubleToString`: `std::to_string(double)` used by `Observer::logMutationEvent`. -/
structure External where
  nicheSpacesOfResources : List ℚ → NicheSpaces
  setResourceAvailability : Isolation → List ℚ → Isolation
  setBarrierThreshold : Isolation → ℚ → Isolation
  doubleToString : ℚ → String

/-- One simple choice of the absent members, used to evaluate the model on
concrete inputs: capacities become available space, the two setters keep the
residents. -/
def External.sample : External where
  nicheSpacesOfResources := fun rs => ⟨rs.map (fun r => ⟨0, r⟩)⟩
  setResourceAvailability := fun iso rs =>
    { iso with nicheSpaces := ⟨rs.map (fun r => ⟨0, r⟩)⟩ }
  setBarrierThreshold := fun iso _ => iso
  doubleToString := fun _ => ""

/-- Modelled from the spec: what the spec says of the two absent Isolation
setters.  ResourceAvailabilityChange "replaces `i`'s niche-capacity values with
a supplied vector" and BarrierThresholdChange "sets a new threshold value
associated with `i`"; neither touches the resident list. -/
def External.KeepsResidents (ext : External) : Prop :=
  ∀ iso : Isolation,
    (∀ resources, (ext.setResourceAvailability iso resources).unitPopulations =
      iso.unitPopulations) ∧
    (∀ threshold, (ext.setBarrierThreshold iso threshold).unitPopulations =
      iso.unitPopulations)

/-! ## system.h -/

/-- The class `System`. -/
structure System where
  baseBirthRate : ℚ
  baseDeathRate : ℚ
  isolations : List Isolation
  barrierThresholds : List (List ℚ)
  nextPopulationId : Int
deriving DecidableEq

namespace System

def getNumberOfIsolations (s : System) : Nat := s.isolations.length

/-- The method `getIsolation(index)`: the isolation at `index`, or the
`std::out_of_range` exception (`none`). -/
def getIsolation (s : System) (index : Int) : Option Isolation :=
  if 0 ≤ index ∧ index < (s.isolations.length : Int) then s.isolations[index.toNat]? else none

/-- Modelled from the spec: `System::getBarrierThreshold(i, j)` is called by
`Director::computeEventRates` but only `getBarrierThresholds()` (the whole
matrix) is among the sources.  It is the entry `barrierThresholds[i][j]` of the
"square symmetric barrierThreshold matrix"; an entry outside the matrix (an
out-of-bounds read in C++) is given the blocking value 1. -/
def getBarrierThreshold (s : System) (i j : Nat) : ℚ :=
  (s.barrierThresholds.getD i []).getD j 1

/-- Apply `f` to the isolation behind handle `i` (a call through the
`shared_ptr`). -/
def modifyIsolation (s : System) (i : Nat) (f : Isolation → Isolation) : System :=
  { s with isolations := s.isolations.modify f i }

/-- The seed population built in `spawnInitialPopulation`. -/
def initialPopulation (id : Int) : UnitPopulation :=
  { unitPopulationId := id, locationId := 0, parentUnitId := none,
    intrinsicMutationRate := 1 / 100, mobility := 1 / 10,
    resourceUsePerNiche := [1, 1, 1], reproductivity := 1 / 2 }

/-- The method `spawnInitialPopulation`: the seed takes `nextPopulationId++`
and is added to `isolations[0]`. -/
def spawnInitialPopulation (s : System) : System :=
  { s with
    nextPopulationId := s.nextPopulationId + 1
    isolations := s.isolations.modify
      (fun iso => iso.addUnitPopulation (initialPopulation s.nextPopulationId)) 0 }

/-- The constructor `System(numIsolations, baseBirth, baseDeath)`.  For
`numIsolations ≤ 0` no System results (`none`): a negative count makes
`resize` throw, and with no isolation `isolations[0]` does not exist. -/
def new (ext : External) (numIsolations : Int) (baseBirth baseDeath : ℚ) : Option System :=
  if numIsolations ≤ 0 then none
  else
    some (spawnInitialPopulation
      { baseBirthRate := baseBirth
        baseDeathRate := baseDeath
        isolations := List.replicate numIsolations.toNat
          { nicheSpaces := ext.nicheSpacesOfResources [10, 10, 10], unitPopulations := [] }
        barrierThresholds :=
          List.replicate numIsolations.toNat (List.replicate numIsolations.toNat 1)
        nextPopulationId := 0 })

/-- The method `setBarrierThreshold(isolationA, isolationB, threshold)`: both
`[A][B]` and `[B][A]` are written when the pair is valid, otherwise nothing is
(only a message on `std::cerr`). -/
def setBarrierThreshold (s : System) (isolationA isolationB : Int) (threshold : ℚ) : System :=
  if 0 ≤ isolationA ∧ isolationA < (s.isolations.length : Int) ∧
      0 ≤ isolationB ∧ isolationB < (s.isolations.length : Int) then
    let m1 := s.barrierThresholds.modify
      (fun row => row.set isolationB.toNat threshold) isolationA.toNat
    let m2 := m1.modify (fun row => row.set isolationA.toNat threshold) isolationB.toNat
    { s with barrierThresholds := m2 }
  else s

end System

/-! ## event.h -/

/-- Modelled from the spec: `Isolation::getId()` is called by
`PopulationImmigrationEvent::execute` but is not among the sources.  The spec
identifies an isolation with its position in the System ("one seed population
placed on isolation 0", child "placed on `j` with `locationId = j`"), so the
identity of the isolation behind a handle is the handle. -/
def isolationId (handle : Nat) : Int := (handle : Int)

/-- The population-scoped events that `computeEventRates` stores in
`populationEvents`, with the members of `PopulationEvent` each one is built
with: the population pointee, the isolation handle(s), and `mutationRate`.
`PopulationMutationEvent` is never stored in a catalog: it is only built
inside the Birth and Immigration `execute` for the fresh child, and is the
function `PopulationMutationEvent.execute` below. -/
inductive PopulationEvent where
  | birth (population : UnitPopulation) (isolation : Nat) (mutationRate : ℚ)
  | death (population : UnitPopulation) (isolation : Nat)
  | immigration (population : UnitPopulation) (isolation : Nat) (targetIsolation : Nat)
      (mutationRate : ℚ)
deriving DecidableEq

/-- The isolation-scoped events stored in `isolationEvents`. -/
inductive IsolationEvent where
  | resourceAvailabilityChange (isolation : Nat) (newResourceAvailability : List ℚ)
  | barrierThresholdChange (isolation : Nat) (newThreshold : ℚ)
deriving DecidableEq

/-- The base class `Event`: what `sampleNextEvent` returns a pointer to. -/
inductive Event where
  | population (e : PopulationEvent)
  | isolation (e : IsolationEvent)
deriving DecidableEq

/-- The draws of one loop iteration: `expDist(gen)` and `uniformDist(gen)` of
`sampleNextEvent`, and `dis(gen)`, `mutationType(gen)` of the event executed. -/
structure Draws where
  waitingTime : ℚ
  threshold : ℚ
  dis : ℚ
  mutationType : Int

/-- The method `PopulationMutationEvent::execute` on its pointee, for the
drawn `mutation` kind (the `switch` has no default case).  The sums are exact
rational sums: a double sum that leaves a large trait value unchanged is not
represented. -/
def PopulationMutationEvent.execute (population : UnitPopulation) (mutation : Int) :
    UnitPopulation :=
  if mutation = 0 then population.setMobility (population.getMobility + 1 / 10)
  else if mutation = 1 then population.setResourceUsePerNiche [11 / 10]
  else if mutation = 2 then population.setReproductivity (population.getReproductivity + 1 / 10)
  else if mutation = 3 then population.setMutationRate (population.getMutationRate + 1 / 100)
  else population

/-- The child built by Birth and Immigration: id `parent + 1`, the given
location, parent id, and the parent's four traits. -/
def spawnChild (population : UnitPopulation) (locId : Int) : UnitPopulation :=
  { unitPopulationId := population.getId + 1
    locationId := locId
    parentUnitId := some population.getId
    intrinsicMutationRate := population.getMutationRate
    mobility := population.getMobility
    resourceUsePerNiche := population.getResourceUsePerNiche
    reproductivity := population.getReproductivity }

/-- The coin flip `dis(gen) < mutationRate` followed by the mutation of the child. -/
def maybeMutate (child : UnitPopulation) (mutationRate dis : ℚ) (mutation : Int) :
    UnitPopulation :=
  if dis < mutationRate then PopulationMutationEvent.execute child mutation else child

/-- The method `PopulationBirthEvent::execute`. -/
def PopulationBirthEvent.execute (s : System) (population : UnitPopulation) (isolation : Nat)
    (mutationRate dis : ℚ) (mutation : Int) : System :=
  let child := spawnChild population population.getLocationId
  s.modifyIsolation isolation
    (fun iso => iso.addUnitPopulation (maybeMutate child mutationRate dis mutation))

/-- The method `PopulationDeathEvent::execute`. -/
def PopulationDeathEvent.execute (s : System) (population : UnitPopulation) (isolation : Nat) :
    System :=
  s.modifyIsolation isolation (fun iso => iso.removeUnitPopulation population.getId)

/-- The method `PopulationImmigrationEvent::execute`. -/
def PopulationImmigrationEvent.execute (s : System) (population : UnitPopulation)
    (targetIsolation : Nat) (mutationRate dis : ℚ) (mutation : Int) : System :=
  let child := spawnChild population (isolationId targetIsolation)
  s.modifyIsolation targetIsolation
    (fun iso => iso.addUnitPopulation (maybeMutate child mutationRate dis mutation))

/-- The virtual call `nextEvent->execute()`. -/
def Event.execute (ext : External) (s : System) (dr : Draws) : Event → System
  | .population (.birth p iso rate) =>
      PopulationBirthEvent.execute s p iso rate dr.dis dr.mutationType
  | .population (.death p iso) => PopulationDeathEvent.execute s p iso
  | .population (.immigration p _ tgt rate) =>
      PopulationImmigrationEvent.execute s p tgt rate dr.dis dr.mutationType
  | .isolation (.resourceAvailabilityChange iso resources) =>
      s.modifyIsolation iso (fun i => ext.setResourceAvailability i resources)
  | .isolation (.barrierThresholdChange iso threshold) =>
      s.modifyIsolation iso (fun i => ext.setBarrierThreshold i threshold)

/-! ## observer.h -/

/-- The struct `Observer::EventRecord`. -/
structure EventRecord where
  eventType : String
  eventTime : ℚ
  eventDetails : String
deriving DecidableEq

/-- The class `Observer`. -/
structure Observer where
  eventHistory : List EventRecord
deriving DecidableEq

namespace Observer

def logBirthEvent (o : Observer) (time : ℚ) (parentId childId locationId : Int) : Observer :=
  let details := "Parent ID: " ++ toString parentId ++ ", Child ID: " ++ toString childId ++
    ", Location ID: " ++ toString locationId
  { eventHistory := o.eventHistory ++ [⟨"Birth", time, details⟩] }

def logDeathEvent (o : Observer) (time : ℚ) (populationId : Int) : Observer :=
  let details := "Population ID: " ++ toString populationId
  { eventHistory := o.eventHistory ++ [⟨"Death", time, details⟩] }

def logImmigrationEvent (o : Observer) (time : ℚ) (populationId fromLocationId toLocationId : Int) :
    Observer :=
  let details := "Population ID: " ++ toString populationId ++ ", From Location: " ++
    toString fromLocationId ++ ", To Location: " ++ toString toLocationId
  { eventHistory := o.eventHistory ++ [⟨"Immigration", time, details⟩] }

def logMutationEvent (ext : External) (o : Observer) (time : ℚ) (populationId locationId : Int)
    (property : String) (oldValue newValue : ℚ) : Observer :=
  let details := "Population ID: " ++ toString populationId ++ ", Location ID: " ++
    toString locationId ++ ", Mutated Property: " ++ property ++ ", From Value: " ++
    ext.doubleToString oldValue ++ ", To Value: " ++ ext.doubleToString newValue
  { eventHistory := o.eventHistory ++ [⟨"Mutation", time, details⟩] }

def clearHistory (_o : Observer) : Observer := { eventHistory := [] }

end Observer

/-! ## director.h -/

/-- The conversion of a `double` to `int` (truncation toward zero) that takes
place when a rate is stored in the `int` slot of a catalog pair. -/
def doubleToInt (x : ℚ) : Int := if 0 ≤ x then ⌊x⌋ else ⌈x⌉

/-- The class `Director` (the random device and generator are the `Draws`). -/
structure Director where
  system : System
  baseBirthRate : ℚ
  baseDeathRate : ℚ
  observer : Observer
  populationEvents : List (Int × PopulationEvent)
  isolationEvents : List (Int × IsolationEvent)
deriving DecidableEq

namespace Director

/-- The constructor `Director(numIsolations, birthRate, deathRate)`. -/
def new (ext : External) (numIsolations : Int) (birthRate deathRate : ℚ) : Option Director :=
  match System.new ext numIsolations birthRate deathRate with
  | none => none
  | some sys =>
      some { system := sys, baseBirthRate := birthRate, baseDeathRate := deathRate
             observer := { eventHistory := [] }, populationEvents := [], isolationEvents := [] }

/-- The inner loop of `computeEventRates` over `targetIsolationIndex`: the
Immigration entries of one population. -/
def immigrationEntries (s : System) (baseBirthRate : ℚ) (population : UnitPopulation)
    (isolationIndex : Nat) : List (Int × PopulationEvent) :=
  (List.range s.getNumberOfIsolations).flatMap fun targetIsolationIndex =>
    if isolationIndex ≠ targetIsolationIndex then
      let barrier := s.getBarrierThreshold isolationIndex targetIsolationIndex
      if barrier < 1 then
        [(doubleToInt (baseBirthRate * (1 - barrier)),
          PopulationEvent.immigration population isolationIndex targetIsolationIndex baseBirthRate)]
      else []
    else []

/-- The body of the loop over the residents: Birth, Death, then Immigration entries. -/
def populationEntries (s : System) (baseBirthRate baseDeathRate : ℚ) (isolationIndex : Nat)
    (population : UnitPopulation) : List (Int × PopulationEvent) :=
  (doubleToInt baseBirthRate, PopulationEvent.birth population isolationIndex baseBirthRate) ::
  (doubleToInt baseDeathRate, PopulationEvent.death population isolationIndex) ::
  immigrationEntries s baseBirthRate population isolationIndex

/-- The residents of isolation `isolationIndex` as read in the outer loop
(`getIsolation` cannot throw there; the exceptional branch contributes nothing). -/
def residents (s : System) (isolationIndex : Nat) : List UnitPopulation :=
  match s.getIsolation (isolationIndex : Int) with
  | some isolation => isolation.getUnitPopulations
  | none => []

/-- The two isolation entries pushed for each isolation. -/
def isolationEntries (isolationIndex : Nat) : List (Int × IsolationEvent) :=
  [(doubleToInt (1 / 10), IsolationEvent.resourceAvailabilityChange isolationIndex [10, 10, 10]),
   (doubleToInt (1 / 20), IsolationEvent.barrierThresholdChange isolationIndex (1 / 2))]

/-- The method `computeEventRates`: both lists are cleared and rebuilt. -/
def computeEventRates (d : Director) : Director :=
  { d with
    populationEvents :=
      (List.range d.system.getNumberOfIsolations).flatMap fun isolationIndex =>
        (residents d.system isolationIndex).flatMap
          (populationEntries d.system d.baseBirthRate d.baseDeathRate isolationIndex)
    isolationEvents :=
      (List.range d.system.getNumberOfIsolations).flatMap isolationEntries }

/-- One of the two accumulation loops of `totalRate`. -/
def sumRates {α : Type} (start : ℚ) (events : List (Int × α)) : ℚ :=
  events.foldl (fun acc eventPair => acc + (eventPair.1 : ℚ)) start

/-- The value `totalRate` computed at the start of `sampleNextEvent`. -/
def totalRate (d : Director) : ℚ :=
  sumRates (sumRates 0 d.populationEvents) d.isolationEvents

/-- One of the two selection loops of `sampleNextEvent`: either the event at
which `cumulativeRate >= threshold` first holds (the early `return`), or the
cumulative rate with which the loop falls through. -/
def scanEvents {α : Type} (threshold : ℚ) : ℚ → List (Int × α) → α ⊕ ℚ
  | cumulativeRate, [] => Sum.inr cumulativeRate
  | cumulativeRate, eventPair :: rest =>
      if cumulativeRate + (eventPair.1 : ℚ) ≥ threshold then Sum.inl eventPair.2
      else scanEvents threshold (cumulativeRate + (eventPair.1 : ℚ)) rest

/-- The method `sampleNextEvent`, given the two values drawn from the
generator; `none` is the `nullptr` of the final `return`. -/
def sampleNextEvent (d : Director) (waitingTime threshold : ℚ) : ℚ × Option Event :=
  match scanEvents threshold 0 d.populationEvents with
  | Sum.inl e => (waitingTime, some (Event.population e))
  | Sum.inr cumulativeRate =>
      match scanEvents threshold cumulativeRate d.isolationEvents with
      | Sum.inl e => (waitingTime, some (Event.isolation e))
      | Sum.inr _ => (waitingTime, none)

/-- Modelled from the spec: the getters of `PopulationBirthEvent` that
`runSimulation` logs with (`getParentId`, `getChildId`, `getLocationId`) are
not among the sources.  The spec lists "parentId, childId (deterministic from
rule above), locationId", with child id = parent id + 1 and the child on the
parent's location. -/
def birthLogFields (population : UnitPopulation) : Int × Int × Int :=
  (population.getId, population.getId + 1, population.getLocationId)

/-- Modelled from the spec: `PopulationDeathEvent::getPopulationId` is not among
the sources; the spec lists "populationId". -/
def deathLogField (population : UnitPopulation) : Int := population.getId

/-- Modelled from the spec: the getters of `PopulationImmigrationEvent`
(`getPopulationId`, `getFromLocation`, `getToLocation`) are not among the
sources; the spec lists "populationId (source), fromLocation, toLocation". -/
def immigrationLogFields (population : UnitPopulation) (isolation targetIsolation : Nat) :
    Int × Int × Int :=
  (population.getId, isolationId isolation, isolationId targetIsolation)

/-- The logging dispatch of `runSimulation` (the chain of `dynamic_cast`s);
isolation events match no branch and are not logged. -/
def logEvent (o : Observer) (currentTime : ℚ) : Event → Observer
  | .population (.birth p _ _) =>
      o.logBirthEvent currentTime (birthLogFields p).1 (birthLogFields p).2.1
        (birthLogFields p).2.2
  | .population (.death p _) => o.logDeathEvent currentTime (deathLogField p)
  | .population (.immigration p src tgt _) =>
      o.logImmigrationEvent currentTime (immigrationLogFields p src tgt).1
        (immigrationLogFields p src tgt).2.1 (immigrationLogFields p src tgt).2.2
  | .isolation _ => o

/-- The body of the `while` loop of `runSimulation`: rebuild the catalog,
sample, advance the clock, then log and execute the event if there is one.
The sampled event is the value that `computeEventRates` built: that the object
behind the stored raw pointer is already destroyed at this point in the source
is not represented. -/
def loopBody (ext : External) (d : Director) (currentTime : ℚ) (dr : Draws) : Director × ℚ :=
  let d1 := d.computeEventRates
  let sampled := d1.sampleNextEvent dr.waitingTime dr.threshold
  let t := currentTime + sampled.1
  match sampled.2 with
  | some nextEvent =>
      ({ d1 with observer := logEvent d1.observer t nextEvent
                 system := nextEvent.execute ext d1.system dr }, t)
  | none => (d1, t)

/-- The `while (currentTime < maxTime)` loop, one element of `draws` consumed
per iteration; `none` when the supplied draws run out before the clock reaches
`maxTime`. -/
def runLoop (ext : External) (maxTime : ℚ) : Director → ℚ → List Draws → Option (Director × ℚ)
  | d, currentTime, [] => if currentTime < maxTime then none else some (d, currentTime)
  | d, currentTime, dr :: rest =>
      if currentTime < maxTime then
        runLoop ext maxTime (loopBody ext d currentTime dr).1 (loopBody ext d currentTime dr).2 rest
      else some (d, currentTime)

/-- The method `runSimulation(maxTime)`: the loop started at clock 0 (the
final `printEventHistory` only prints). -/
def runSimulation (ext : External) (d : Director) (maxTime : ℚ) (draws : List Draws) :
    Option Director :=
  (runLoop ext maxTime d 0 draws).map Prod.fst

/-- The states reachable from `d0`: by iterations of the loop body, whatever
the clock and the draws (`step`), and by the execution of any event on the
System, however it came to be selected (`executed`). -/
inductive Reachable (ext : External) (d0 : Director) : Director → Prop where
  | start : Reachable ext d0 d0
  | step (d : Director) (currentTime : ℚ) (dr : Draws) :
      Reachable ext d0 d → Reachable ext d0 (loopBody ext d currentTime dr).1
  | executed (d : Director) (e : Event) (dr : Draws) :
      Reachable ext d0 d → Reachable ext d0 { d with system := e.execute ext d.system dr }

/-- The walk order of `sampleNextEvent` as one list: the population entries in
generation order, then the isolation entries in generation order. -/
def catalog (d : Director) : List (Int × Event) :=
  d.populationEvents.map (fun eventPair => (eventPair.1, Event.population eventPair.2)) ++
  d.isolationEvents.map (fun eventPair => (eventPair.1, Event.isolation eventPair.2))

/-- The running cumulative propensity sum once the entry at position `k` has
been added. -/
def cumulative {α : Type} (events : List (Int × α)) (k : Nat) : ℚ :=
  sumRates 0 (events.take (k + 1))

/-- The Birth and Death entries that `computeEventRates` builds for one
resident of isolation 0 when the rates are 1 and 0 (stored as 1 and 0). -/
def birthDeathPair (p : UnitPopulation) : List (Int × PopulationEvent) :=
  [(1, PopulationEvent.birth p 0 1), (0, PopulationEvent.death p 0)]

end Director

/-! ## Properties used in the statements -/

namespace System

/-- The barrier matrix reads the same in both directions. -/
def Symmetric (s : System) : Prop :=
  ∀ x y : Nat, s.getBarrierThreshold x y = s.getBarrierThreshold y x

/-- The barrier matrix is `N × N` for the `N` isolations of the System. -/
def SquareMatrix (s : System) : Prop :=
  s.barrierThresholds.length = s.isolations.length ∧
  ∀ row ∈ s.barrierThresholds, row.length = s.isolations.length

/-- The System states reachable from a construction by barrier updates and
event executions. -/
inductive Reachable (ext : External) : System → Prop where
  | constructed (n : Int) (b d : ℚ) (s : System) :
      System.new ext n b d = some s → Reachable ext s
  | barrierSet (s : System) (a b : Int) (t : ℚ) :
      Reachable ext s → Reachable ext (s.setBarrierThreshold a b t)
  | executed (s : System) (e : Event) (dr : Draws) :
      Reachable ext s → Reachable ext (e.execute ext s dr)

end System

/-! ## Event preconditions, reachable Systems and the spec's total -/

/-- The precondition of a population event in the spec's table: its population
is resident on its (source) isolation, and an Immigration targets an isolation
of the System.  The entries built by `computeEventRates` satisfy it. -/
def Event.Applicable (s : System) : Event → Prop
  | .population (.birth p i _) => p ∈ Director.residents s i
  | .population (.death p i) => p ∈ Director.residents s i
  | .population (.immigration p i j _) =>
      p ∈ Director.residents s i ∧ j < s.getNumberOfIsolations
  | .isolation _ => True

namespace System

/-- A Mutation event whose pointee is the resident at position `k` of isolation
`i`: `PopulationMutationEvent::execute` applied to it in place. -/
def mutateResident (s : System) (i k : Nat) (mutation : Int) : System :=
  s.modifyIsolation i (fun iso =>
    { iso with unitPopulations :=
        iso.unitPopulations.modify (fun p => PopulationMutationEvent.execute p mutation) k })

/-- The data-model invariant of the spec: every population held by isolation
`k` has `locationId = k`. -/
def LocationInvariant (s : System) : Prop :=
  ∀ (k : Nat) (iso : Isolation), s.getIsolation (k : Int) = some iso →
    ∀ p ∈ iso.getUnitPopulations, p.getLocationId = isolationId k

/-- The System states reachable from a construction by executions of events
that meet their precondition (Birth, Death, Immigration,
ResourceAvailabilityChange, BarrierThresholdChange) and by Mutation events on
residents. -/
inductive EventReachable (ext : External) : System → Prop where
  | constructed (n : Int) (b d : ℚ) (s : System) :
      System.new ext n b d = some s → EventReachable ext s
  | executed (s : System) (e : Event) (dr : Draws) :
      EventReachable ext s → e.Applicable s → EventReachable ext (e.execute ext s dr)
  | mutated (s : System) (i k : Nat) (mutation : Int) :
      EventReachable ext s → EventReachable ext (s.mutateResident i k mutation)

/-- The ids of all populations present in the System, isolation by isolation. -/
def populationIds (s : System) : List Int :=
  s.isolations.flatMap (fun iso => iso.unitPopulations.map UnitPopulation.getId)

end System

namespace Director

/-- The propensities the spec prescribes for one resident of isolation `i`:
baseBirthRate, baseDeathRate, and baseBirthRate × (1 − barrier(i,j)) for every
other isolation `j` with `barrier(i,j) < 1`. -/
def specPopulationPropensity (d : Director) (i : Nat) : ℚ :=
  d.baseBirthRate + d.baseDeathRate +
    ((List.range d.system.getNumberOfIsolations).map (fun j =>
      if j ≠ i ∧ d.system.getBarrierThreshold i j < 1 then
        d.baseBirthRate * (1 - d.system.getBarrierThreshold i j)
      else 0)).sum

/-- The total propensity as the spec prescribes it, recomputed from the state:
the propensities of every resident of every isolation, plus 0.1 + 0.05 for
each isolation. -/
def specTotalPropensity (d : Director) : ℚ :=
  ((List.range d.system.getNumberOfIsolations).map (fun i =>
    ((residents d.system i).length : ℚ) * specPopulationPropensity d i + (1 / 10 + 1 / 20))).sum

end Director

/-! ## Runs of the loop on a prefix of the draws -/

namespace Director

/-- The `while` loop of `runSimulation` run on the given draws: the state and
clock at which the loop stops, or those reached when the draws are used up
(a prefix of the run).  It agrees with `runLoop` whenever that returns. -/
def runPrefix (ext : External) (maxTime : ℚ) : Director → ℚ → List Draws → Director × ℚ
  | d, currentTime, [] => (d, currentTime)
  | d, currentTime, dr :: rest =>
      if currentTime < maxTime then
        runPrefix ext maxTime (loopBody ext d currentTime dr).1
          (loopBody ext d currentTime dr).2 rest
      else (d, currentTime)

/-- The clock values after each iteration that the loop performs on the given
draws, in order: the time of the event of that iteration. -/
def iterationClocks (ext : External) (maxTime : ℚ) : Director → ℚ → List Draws → List ℚ
  | _, _, [] => []
  | d, currentTime, dr :: rest =>
      if currentTime < maxTime then
        (loopBody ext d currentTime dr).2 ::
          iterationClocks ext maxTime (loopBody ext d currentTime dr).1
            (loopBody ext d currentTime dr).2 rest
      else []

/-- Position `k` is where the walk of `sampleNextEvent` stops for threshold `u`:
the running sum reaches `u` there and at no earlier position. -/
def SelectedAt (d : Director) (u : ℚ) (k : Nat) : Prop :=
  k < (catalog d).length ∧ u ≤ cumulative (catalog d) k ∧
    ∀ j, j < k → cumulative (catalog d) j < u

end Director

/-! ## Concrete states on which the model is evaluated -/

namespace Examples

/-- The seed population of a fresh System. -/
def seed : UnitPopulation := System.initialPopulation 0

/-- A Director with one isolation holding the seed, rates 1 and 0, and the
catalog that `computeEventRates` builds for it. -/
def oneIsolation : Director where
  system :=
    { baseBirthRate := 1, baseDeathRate := 0
      isolations := [{ nicheSpaces := { dimensions := [] }, unitPopulations := [seed] }]
      barrierThresholds := [[1]], nextPopulationId := 1 }
  baseBirthRate := 1
  baseDeathRate := 0
  observer := { eventHistory := [] }
  populationEvents := [(1, PopulationEvent.birth seed 0 1), (0, PopulationEvent.death seed 0)]
  isolationEvents :=
    [(0, IsolationEvent.resourceAvailabilityChange 0 [10, 10, 10]),
     (0, IsolationEvent.barrierThresholdChange 0 (1 / 2))]

/-- An isolation of a fresh System (under `External.sample`) with the given residents. -/
def freshIsolation (residents : List UnitPopulation) : Isolation :=
  { nicheSpaces := External.sample.nicheSpacesOfResources [10, 10, 10]
    unitPopulations := residents }

/-- The Director that `Director(3, 0.5, 0.2)` of main.cpp constructs. -/
def shipped : Director where
  system :=
    { baseBirthRate := 1 / 2, baseDeathRate := 1 / 5
      isolations := [freshIsolation [seed], freshIsolation [], freshIsolation []]
      barrierThresholds := [[1, 1, 1], [1, 1, 1], [1, 1, 1]], nextPopulationId := 1 }
  baseBirthRate := 1 / 2
  baseDeathRate := 1 / 5
  observer := { eventHistory := [] }
  populationEvents := []
  isolationEvents := []

/-- Two isolations, the seed on isolation 0, and the barrier between them
lowered to 1/2. -/
def twoOpen : Director where
  system :=
    { baseBirthRate := 1 / 2, baseDeathRate := 1 / 5
      isolations := [freshIsolation [seed], freshIsolation []]
      barrierThresholds := [[1, 1 / 2], [1 / 2, 1]], nextPopulationId := 1 }
  baseBirthRate := 1 / 2
  baseDeathRate := 1 / 5
  observer := { eventHistory := [] }
  populationEvents := []
  isolationEvents := []

/-- The Director that `Director(2, 0.5, 0.2)` constructs: two isolations, every
barrier 1. -/
def twoClosed : Director where
  system :=
    { baseBirthRate := 1 / 2, baseDeathRate := 1 / 5
      isolations := [freshIsolation [seed], freshIsolation []]
      barrierThresholds := [[1, 1], [1, 1]], nextPopulationId := 1 }
  baseBirthRate := 1 / 2
  baseDeathRate := 1 / 5
  observer := { eventHistory := [] }
  populationEvents := []
  isolationEvents := []

/-- The Director that `Director(1, 1.0, 0.0)` constructs (Scenario A). -/
def scenarioA : Director where
  system :=
    { baseBirthRate := 1, baseDeathRate := 0
      isolations := [freshIsolation [seed]]
      barrierThresholds := [[1]], nextPopulationId := 1 }
  baseBirthRate := 1
  baseDeathRate := 0
  observer := { eventHistory := [] }
  populationEvents := []
  isolationEvents := []

/-- The draws of one iteration used in the examples: waiting time 100,
threshold 0, coin 3/4, mutation kind 0. -/
def draws : Draws := { waitingTime := 100, threshold := 0, dis := 3 / 4, mutationType := 0 }

/-- The state `twoClosed` after a `BarrierThresholdChangeEvent(isolation 0, 0.5)`
has been executed on it. -/
def afterBarrierChange : Director :=
  { twoClosed with
    system := (Event.isolation (IsolationEvent.barrierThresholdChange 0 (1 / 2))).execute
      External.sample twoClosed.system draws }

/-- The System of `shipped` after one Birth of the seed on isolation 0 (coin
3/4, no mutation). -/
def oneBirth : System :=
  (Event.population (PopulationEvent.birth seed 0 (1 / 2))).execute External.sample
    shipped.system draws

/-- The System of `shipped` after two Births of the seed on isolation 0. -/
def twoBirths : System :=
  (Event.population (PopulationEvent.birth seed 0 (1 / 2))).execute External.sample
    oneBirth draws

/-- The System of `shipped` after an Immigration of the seed from isolation 0
to isolation 1. -/
def afterImmigration : System :=
  (Event.population (PopulationEvent.immigration seed 0 1 (1 / 2))).execute External.sample
    shipped.system draws

/-- A population whose resource use is already `[1.1]`, as is a child born to a
parent that underwent the resource-use mutation. -/
def specialist : UnitPopulation :=
  { unitPopulationId := 2, locationId := 0, parentUnitId := some 1,
    intrinsicMutationRate := 1 / 100, mobility := 1 / 10,
    resourceUsePerNiche := [11 / 10], reproductivity := 1 / 2 }

/-- The draws of an iteration whose coin is 0.3: waiting time 100, threshold 0,
coin 3/10, mutation kind 0. -/
def drawsCoinThreeTenths : Draws :=
  { waitingTime := 100, threshold := 0, dis := 3 / 10, mutationType := 0 }

end Examples

/-! ## Lemmas -/

namespace Director

theorem sumRates_cons {α : Type} (c : ℚ) (x : Int × α) (l : List (Int × α)) :
    sumRates c (x :: l) = sumRates (c + (x.1 : ℚ)) l := rfl

theorem sumRates_append {α : Type} (c : ℚ) (l₁ l₂ : List (Int × α)) :
    sumRates c (l₁ ++ l₂) = sumRates (sumRates c l₁) l₂ := by
  simp [sumRates, List.foldl_append]

theorem sumRates_map {α β : Type} (f : α → β) (c : ℚ) (l : List (Int × α)) :
    sumRates c (l.map (fun x => (x.1, f x.2))) = sumRates c l := by
  induction l generalizing c with
  | nil => rfl
  | cons x l ih => simp [sumRates_cons, ih]

theorem totalRate_eq_catalog (d : Director) : totalRate d = sumRates 0 (catalog d) := by
  simp [totalRate, catalog, sumRates_append, sumRates_map]

theorem scanEvents_map {α β : Type} (f : α → β) (u c : ℚ) (l : List (Int × α)) :
    scanEvents u c (l.map (fun x => (x.1, f x.2))) = Sum.map f id (scanEvents u c l) := by
  induction l generalizing c with
  | nil => rfl
  | cons x l ih =>
      simp only [List.map_cons, scanEvents]
      split
      · rfl
      · exact ih _

theorem scanEvents_append {α : Type} (u c : ℚ) (l₁ l₂ : List (Int × α)) :
    scanEvents u c (l₁ ++ l₂) =
      match scanEvents u c l₁ with
      | Sum.inl e => Sum.inl e
      | Sum.inr c₁ => scanEvents u c₁ l₂ := by
  induction l₁ generalizing c with
  | nil => rfl
  | cons x l ih =>
      simp only [List.cons_append, scanEvents]
      split
      · rfl
      · exact ih _

/-- The two loops of `sampleNextEvent` are one walk over `catalog`. -/
theorem sampleNextEvent_eq_scan (d : Director) (w u : ℚ) :
    sampleNextEvent d w u = (w, (scanEvents u 0 (catalog d)).getLeft?) := by
  unfold sampleNextEvent catalog
  rw [scanEvents_append, scanEvents_map]
  cases h : scanEvents u 0 d.populationEvents with
  | inl e => simp
  | inr c =>
      simp only [Sum.map_inr, id]
      rw [scanEvents_map]
      cases h2 : scanEvents u c d.isolationEvents <;> simp

/-- What a selection loop returns: the first entry whose running sum reaches
the threshold, or the final sum when none does. -/
theorem scanEvents_spec {α : Type} (u : ℚ) (l : List (Int × α)) (c : ℚ) :
    (∀ e, scanEvents u c l = Sum.inl e →
      ∃ k r, l[k]? = some (r, e) ∧ u ≤ sumRates c (l.take (k + 1)) ∧
        ∀ j, j < k → sumRates c (l.take (j + 1)) < u) ∧
    (∀ c₁, scanEvents u c l = Sum.inr c₁ →
      c₁ = sumRates c l ∧ ∀ j, j < l.length → sumRates c (l.take (j + 1)) < u) := by
  induction l generalizing c with
  | nil =>
      refine ⟨fun e h => ?_, fun c₁ h => ?_⟩
      · simp [scanEvents] at h
      · simp only [scanEvents, Sum.inr.injEq] at h
        exact ⟨h ▸ rfl, fun j hj => absurd hj (by simp)⟩
  | cons x l ih =>
      obtain ⟨r, ev⟩ := x
      by_cases hx : c + (r : ℚ) ≥ u
      · refine ⟨fun e h => ?_, fun c₁ h => ?_⟩
        · simp only [scanEvents, hx, if_true, Sum.inl.injEq] at h
          refine ⟨0, r, by simp [h], ?_, fun j hj => absurd hj (by omega)⟩
          simpa [sumRates, List.foldl] using hx
        · simp [scanEvents, hx] at h
      · have hlt : c + (r : ℚ) < u := lt_of_not_ge hx
        obtain ⟨ih1, ih2⟩ := ih (c + (r : ℚ))
        refine ⟨fun e h => ?_, fun c₁ h => ?_⟩
        · simp only [scanEvents, hx, if_false] at h
          obtain ⟨k, r₁, hk, hle, hmin⟩ := ih1 e h
          refine ⟨k + 1, r₁, by simpa using hk, by simpa [sumRates_cons] using hle, ?_⟩
          intro j hj
          cases j with
          | zero => simpa [sumRates, List.foldl] using hlt
          | succ j => simpa [sumRates_cons] using hmin j (by omega)
        · simp only [scanEvents, hx, if_false] at h
          obtain ⟨hc, hall⟩ := ih2 c₁ h
          refine ⟨by simpa [sumRates_cons] using hc, ?_⟩
          intro j hj
          cases j with
          | zero => simpa [sumRates, List.foldl] using hlt
          | succ j =>
              have hj2 : j < l.length := by simpa using hj
              simpa [sumRates_cons] using hall j hj2

/-- Entries of the walk before position `populationEvents.length` are
population events, the later ones isolation events. -/
theorem catalog_getElem?_kind (d : Director) (k : Nat) (r : Int) (e : Event)
    (h : (catalog d)[k]? = some (r, e)) :
    (k < d.populationEvents.length → ∃ pe, e = Event.population pe) ∧
    (d.populationEvents.length ≤ k → ∃ ie, e = Event.isolation ie) := by
  unfold catalog at h
  constructor
  · intro hk
    rw [List.getElem?_append_left (by simpa using hk)] at h
    simp only [List.getElem?_map, Option.map_eq_some'] at h
    obtain ⟨x, _, hx⟩ := h
    exact ⟨x.2, by cases hx; rfl⟩
  · intro hk
    rw [List.getElem?_append_right (by simpa using hk)] at h
    simp only [List.getElem?_map, Option.map_eq_some'] at h
    obtain ⟨x, _, hx⟩ := h
    exact ⟨x.2, by cases hx; rfl⟩

/-- A non-empty walk whose total reaches the threshold returns an event. -/
theorem scan_some_of_le_total {α : Type} (u : ℚ) (l : List (Int × α)) (hne : l ≠ [])
    (hu : u ≤ sumRates 0 l) : ∃ e, scanEvents u 0 l = Sum.inl e := by
  cases h : scanEvents u 0 l with
  | inl e => exact ⟨e, rfl⟩
  | inr c =>
      exfalso
      obtain ⟨_, hall⟩ := (scanEvents_spec u l 0).2 c h
      have hpos : 0 < l.length := List.length_pos.mpr hne
      have := hall (l.length - 1) (by omega)
      rw [show l.length - 1 + 1 = l.length by omega, List.take_length] at this
      exact absurd hu (not_le.mpr this)

/-- The residents read by the outer loop are those of the isolation that
`getIsolation` returns. -/
theorem residents_of_getIsolation (s : System) (i : Nat) (iso : Isolation)
    (h : s.getIsolation (i : Int) = some iso) : residents s i = iso.getUnitPopulations := by
  simp [residents, h]

theorem getIsolation_some_lt (s : System) (i : Nat) (iso : Isolation)
    (h : s.getIsolation (i : Int) = some iso) : i < s.getNumberOfIsolations := by
  unfold System.getIsolation at h
  split at h
  · rename_i hc
    simpa [System.getNumberOfIsolations] using hc.2
  · cases h

/-- Membership in the population part of the rebuilt catalog. -/
theorem mem_populationEvents (d : Director) (x : Int × PopulationEvent) :
    x ∈ (computeEventRates d).populationEvents ↔
      ∃ i, i < d.system.getNumberOfIsolations ∧ ∃ p, p ∈ residents d.system i ∧
        x ∈ populationEntries d.system d.baseBirthRate d.baseDeathRate i p := by
  simp [computeEventRates, List.mem_flatMap, List.mem_range]

/-- Membership in the Immigration entries of one population. -/
theorem mem_immigrationEntries (s : System) (b : ℚ) (p : UnitPopulation) (i : Nat)
    (x : Int × PopulationEvent) :
    x ∈ immigrationEntries s b p i ↔
      ∃ j, j < s.getNumberOfIsolations ∧ i ≠ j ∧ s.getBarrierThreshold i j < 1 ∧
        x = (doubleToInt (b * (1 - s.getBarrierThreshold i j)),
              PopulationEvent.immigration p i j b) := by
  unfold immigrationEntries
  simp only [List.mem_flatMap, List.mem_range]
  constructor
  · rintro ⟨j, hj, hx⟩
    by_cases hij : i = j
    · simp [hij] at hx
    · by_cases hb : s.getBarrierThreshold i j < 1
      · simp only [ne_eq, hij, not_false_eq_true, if_true, hb, List.mem_singleton] at hx
        exact ⟨j, hj, hij, hb, hx⟩
      · simp [hij, hb] at hx
  · rintro ⟨j, hj, hij, hb, hx⟩
    exact ⟨j, hj, by simp [hij, hb, hx]⟩

end Director

theorem modifyIsolation_length (s : System) (i : Nat) (f : Isolation → Isolation) :
    (s.modifyIsolation i f).isolations.length = s.isolations.length := by
  simp [System.modifyIsolation]

theorem execute_isolations_length (ext : External) (s : System) (dr : Draws) (e : Event) :
    (e.execute ext s dr).isolations.length = s.isolations.length := by
  rcases e with (_ | _ | _) | (_ | _) <;>
    simp [Event.execute, PopulationBirthEvent.execute, PopulationDeathEvent.execute,
      PopulationImmigrationEvent.execute, System.modifyIsolation]

theorem execute_barrierThresholds (ext : External) (s : System) (dr : Draws) (e : Event) :
    (e.execute ext s dr).barrierThresholds = s.barrierThresholds := by
  rcases e with (_ | _ | _) | (_ | _) <;> rfl

namespace Director

theorem sampleNextEvent_fst (d : Director) (w u : ℚ) : (sampleNextEvent d w u).1 = w := by
  rw [sampleNextEvent_eq_scan]

theorem computeEventRates_system (d : Director) : (computeEventRates d).system = d.system := rfl

theorem computeEventRates_observer (d : Director) :
    (computeEventRates d).observer = d.observer := rfl

/-- The loop body when an event was sampled: it is logged at the advanced
clock and executed on the System. -/
theorem loopBody_some (ext : External) (d : Director) (t : ℚ) (dr : Draws) (e : Event)
    (h : (sampleNextEvent (computeEventRates d) dr.waitingTime dr.threshold).2 = some e) :
    loopBody ext d t dr =
      ({ computeEventRates d with
          observer := logEvent d.observer (t + dr.waitingTime) e
          system := e.execute ext d.system dr }, t + dr.waitingTime) := by
  simp only [loopBody, h, sampleNextEvent_fst, computeEventRates_system,
    computeEventRates_observer]

/-- The loop body when no event was sampled: only the clock advances. -/
theorem loopBody_none (ext : External) (d : Director) (t : ℚ) (dr : Draws)
    (h : (sampleNextEvent (computeEventRates d) dr.waitingTime dr.threshold).2 = none) :
    loopBody ext d t dr = (computeEventRates d, t + dr.waitingTime) := by
  simp only [loopBody, h, sampleNextEvent_fst]

theorem loopBody_baseBirthRate (ext : External) (d : Director) (t : ℚ) (dr : Draws) :
    (loopBody ext d t dr).1.baseBirthRate = d.baseBirthRate := by
  cases h : (sampleNextEvent (computeEventRates d) dr.waitingTime dr.threshold).2 with
  | none => rw [loopBody_none ext d t dr h]; rfl
  | some e => rw [loopBody_some ext d t dr e h]; rfl

theorem loopBody_baseDeathRate (ext : External) (d : Director) (t : ℚ) (dr : Draws) :
    (loopBody ext d t dr).1.baseDeathRate = d.baseDeathRate := by
  cases h : (sampleNextEvent (computeEventRates d) dr.waitingTime dr.threshold).2 with
  | none => rw [loopBody_none ext d t dr h]; rfl
  | some e => rw [loopBody_some ext d t dr e h]; rfl

theorem loopBody_isolations_length (ext : External) (d : Director) (t : ℚ) (dr : Draws) :
    (loopBody ext d t dr).1.system.isolations.length = d.system.isolations.length := by
  cases h : (sampleNextEvent (computeEventRates d) dr.waitingTime dr.threshold).2 with
  | none => rw [loopBody_none ext d t dr h]; rfl
  | some e => rw [loopBody_some ext d t dr e h]; exact execute_isolations_length ext _ dr e

theorem loopBody_barrierThresholds (ext : External) (d : Director) (t : ℚ) (dr : Draws) :
    (loopBody ext d t dr).1.system.barrierThresholds = d.system.barrierThresholds := by
  cases h : (sampleNextEvent (computeEventRates d) dr.waitingTime dr.threshold).2 with
  | none => rw [loopBody_none ext d t dr h]; rfl
  | some e => rw [loopBody_some ext d t dr e h]; exact execute_barrierThresholds ext _ dr e

/-- Rates, number of isolations and barrier matrix are those of the start in
every state the loop reaches. -/
theorem reachable_invariant (ext : External) (d0 d : Director) (h : Reachable ext d0 d) :
    d.baseBirthRate = d0.baseBirthRate ∧ d.baseDeathRate = d0.baseDeathRate ∧
    d.system.isolations.length = d0.system.isolations.length ∧
    d.system.barrierThresholds = d0.system.barrierThresholds := by
  induction h with
  | start => exact ⟨rfl, rfl, rfl, rfl⟩
  | step d t dr _ ih =>
      obtain ⟨h1, h2, h3, h4⟩ := ih
      exact ⟨(loopBody_baseBirthRate ext d t dr).trans h1,
        (loopBody_baseDeathRate ext d t dr).trans h2,
        (loopBody_isolations_length ext d t dr).trans h3,
        (loopBody_barrierThresholds ext d t dr).trans h4⟩
  | executed d e dr _ ih =>
      obtain ⟨h1, h2, h3, h4⟩ := ih
      exact ⟨h1, h2, (execute_isolations_length ext d.system dr e).trans h3,
        (execute_barrierThresholds ext d.system dr e).trans h4⟩

/-- A population event returned by `sampleNextEvent` is an entry of
`populationEvents`. -/
theorem sampleNextEvent_population_mem (d : Director) (w u : ℚ) (e : PopulationEvent)
    (h : (sampleNextEvent d w u).2 = some (Event.population e)) :
    ∃ r, (r, e) ∈ d.populationEvents := by
  unfold sampleNextEvent at h
  cases hs : scanEvents u 0 d.populationEvents with
  | inl e₁ =>
      simp only [hs, Option.some.injEq, Event.population.injEq] at h
      subst h
      obtain ⟨k, r, hk, _⟩ := (scanEvents_spec u d.populationEvents 0).1 e₁ hs
      exact ⟨r, List.mem_iff_getElem?.mpr ⟨k, hk⟩⟩
  | inr c =>
      simp only [hs] at h
      cases hs2 : scanEvents u c d.isolationEvents <;> simp [hs2] at h

theorem doubleToInt_one : doubleToInt 1 = 1 := by norm_num [doubleToInt]

theorem doubleToInt_zero : doubleToInt 0 = 0 := by norm_num [doubleToInt]

theorem doubleToInt_tenth : doubleToInt (1 / 10) = 0 := by norm_num [doubleToInt]

theorem doubleToInt_twentieth : doubleToInt (1 / 20) = 0 := by norm_num [doubleToInt]

/-- With one isolation and rates 1 and 0 the catalog is a Birth (stored 1) and
a Death (stored 0) per resident, then two isolation entries stored as 0. -/
theorem computeEventRates_scenarioA (d : Director) (hN : d.system.isolations.length = 1)
    (hb : d.baseBirthRate = 1) (hd : d.baseDeathRate = 0) :
    (computeEventRates d).populationEvents = (residents d.system 0).flatMap birthDeathPair ∧
    (computeEventRates d).isolationEvents =
      [(0, IsolationEvent.resourceAvailabilityChange 0 [10, 10, 10]),
       (0, IsolationEvent.barrierThresholdChange 0 (1 / 2))] := by
  constructor
  · have hfun : populationEntries d.system 1 0 0 = birthDeathPair := by
      funext p
      simp [populationEntries, immigrationEntries, System.getNumberOfIsolations, hN,
        doubleToInt_one, doubleToInt_zero, birthDeathPair, List.range_succ]
    simp [computeEventRates, System.getNumberOfIsolations, hN, List.range_succ, hb, hd, hfun]
  · simp only [computeEventRates, System.getNumberOfIsolations, hN, isolationEntries,
      doubleToInt_tenth, doubleToInt_twentieth, List.range_succ, List.range_zero,
      List.nil_append, List.flatMap_cons, List.flatMap_nil, List.append_nil]

theorem birthDeath_cons (p : UnitPopulation) (ps : List UnitPopulation) :
    (p :: ps).flatMap birthDeathPair =
      (1, PopulationEvent.birth p 0 1) :: (0, PopulationEvent.death p 0) ::
        ps.flatMap birthDeathPair := by
  simp [List.flatMap_cons, birthDeathPair]

theorem sumRates_birthDeath (ps : List UnitPopulation) (c : ℚ) :
    sumRates c (ps.flatMap birthDeathPair) = c + ps.length := by
  induction ps generalizing c with
  | nil => simp [sumRates]
  | cons p ps ih =>
      rw [birthDeath_cons, sumRates_cons, sumRates_cons, ih]
      simp only [List.length_cons]
      push_cast
      ring

/-- Walking Birth/Death pairs stored as 1 and 0: either a Birth is returned, or
the walk falls through with every resident counted and the threshold still
above the sum. -/
theorem scan_birthDeath (u : ℚ) (ps : List UnitPopulation) (c : ℚ) :
    (∃ p, scanEvents u c (ps.flatMap birthDeathPair) = Sum.inl (PopulationEvent.birth p 0 1)) ∨
    (scanEvents u c (ps.flatMap birthDeathPair) = Sum.inr (c + ps.length) ∧
      (ps ≠ [] → c + ps.length < u)) := by
  induction ps generalizing c with
  | nil => right; simp [scanEvents]
  | cons p ps ih =>
      by_cases h1 : c + 1 ≥ u
      · left
        exact ⟨p, by rw [birthDeath_cons]; simp [scanEvents, h1]⟩
      · have hlt : c + 1 < u := lt_of_not_ge h1
        have hstep : scanEvents u c ((p :: ps).flatMap birthDeathPair) =
            scanEvents u (c + 1) (ps.flatMap birthDeathPair) := by
          rw [birthDeath_cons]
          simp [scanEvents, h1]
        rw [hstep]
        rcases ih (c + 1) with hb | ⟨hr, hne⟩
        · exact Or.inl hb
        · right
          refine ⟨by rw [hr]; simp only [List.length_cons]; push_cast; ring_nf, fun _ => ?_⟩
          by_cases hps : ps = []
          · subst hps; simpa using hlt
          · have := hne hps
            simp only [List.length_cons, Nat.cast_add, Nat.cast_one]
            linarith

/-- What the constructors establish. -/
theorem new_props (ext : External) (n : Int) (b dd : ℚ) (d0 : Director)
    (h : Director.new ext n b dd = some d0) :
    0 < n ∧ d0.baseBirthRate = b ∧ d0.baseDeathRate = dd ∧
    d0.system.isolations.length = n.toNat ∧
    d0.system.barrierThresholds = List.replicate n.toNat (List.replicate n.toNat 1) := by
  unfold Director.new System.new at h
  by_cases hn : n ≤ 0
  · simp [hn] at h
  · simp only [hn, if_false, Option.some.injEq] at h
    subst h
    refine ⟨lt_of_not_ge hn, rfl, rfl, ?_, rfl⟩
    simp [System.spawnInitialPopulation]

theorem loopBody_snd (ext : External) (d : Director) (t : ℚ) (dr : Draws) :
    (loopBody ext d t dr).2 = t + dr.waitingTime := by
  cases h : (sampleNextEvent (computeEventRates d) dr.waitingTime dr.threshold).2 with
  | none => rw [loopBody_none ext d t dr h]
  | some e => rw [loopBody_some ext d t dr e h]

end Director

namespace System

/-- Reading a matrix after one row update `m[a][b] = t`. -/
theorem entry_modify_set (m : List (List ℚ)) (a b x y : Nat) (t : ℚ) :
    ((m.modify (fun row => row.set b t) a).getD x []).getD y 1 =
      if x = a ∧ y = b ∧ b < (m.getD a []).length then t else (m.getD x []).getD y 1 := by
  simp only [List.getD_eq_getElem?_getD, List.getElem?_modify]
  by_cases hx : x = a
  · subst hx
    cases hm : m[x]? with
    | none => simp
    | some row =>
        simp only [Option.map_some', if_true, Option.getD_some, List.getElem?_set, true_and]
        by_cases hy : y = b
        · subst hy
          by_cases hlen : y < row.length
          · simp [hlen]
          · have : (row.set y t)[y]? = none :=
              List.getElem?_eq_none (by simpa using not_lt.mp hlen)
            have h0 : row[y]? = none := List.getElem?_eq_none (not_lt.mp hlen)
            simp [hlen, this, h0]
        · have hy2 : ¬ b = y := fun h => hy h.symm
          simp [hy, hy2]
  · have hx2 : ¬ a = x := fun h => hx h.symm
    cases hm : m[x]? <;> simp [hx, hx2]

/-- A row update keeps the shape of the matrix. -/
theorem modify_set_rows (m : List (List ℚ)) (a b n : Nat) (t : ℚ)
    (h : ∀ row ∈ m, row.length = n) :
    ∀ row ∈ m.modify (fun row => row.set b t) a, row.length = n := by
  intro row hrow
  obtain ⟨k, hk⟩ := List.mem_iff_getElem?.mp hrow
  rw [List.getElem?_modify] at hk
  cases hm : m[k]? with
  | none => simp [hm] at hk
  | some r0 =>
      have hr0 : r0.length = n := h r0 (List.mem_iff_getElem?.mpr ⟨k, hm⟩)
      rw [hm] at hk
      split at hk
      · simp only [Option.map_eq_map, Option.map_some', Option.some.injEq] at hk
        subst hk; simpa using hr0
      · simp only [Option.map_eq_map, Option.map_some', Option.some.injEq] at hk
        subst hk; exact hr0

theorem getD_length_of_square (s : System) (hs : s.SquareMatrix) (a : Nat)
    (ha : a < s.isolations.length) : (s.barrierThresholds.getD a []).length = s.isolations.length := by
  have hlt : a < s.barrierThresholds.length := by rw [hs.1]; exact ha
  rw [List.getD_eq_getElem?_getD, List.getElem?_eq_getElem hlt, Option.getD_some]
  exact hs.2 _ (List.getElem_mem _)

/-- The entries of the matrix after a valid `setBarrierThreshold(a, b, t)`. -/
theorem getBarrierThreshold_set (s : System) (hs : s.SquareMatrix) (a b : Nat) (t : ℚ)
    (ha : a < s.isolations.length) (hb : b < s.isolations.length) (x y : Nat) :
    (s.setBarrierThreshold (a : Int) (b : Int) t).getBarrierThreshold x y =
      if (x = a ∧ y = b) ∨ (x = b ∧ y = a) then t else s.getBarrierThreshold x y := by
  have hcond : 0 ≤ (a : Int) ∧ (a : Int) < (s.isolations.length : Int) ∧
      0 ≤ (b : Int) ∧ (b : Int) < (s.isolations.length : Int) := by omega
  have hrows1 := modify_set_rows s.barrierThresholds a b _ t hs.2
  have hlen1 : ((s.barrierThresholds.modify (fun row => row.set b t) a).getD b []).length =
      s.isolations.length := by
    have hlt : b < (s.barrierThresholds.modify (fun row => row.set b t) a).length := by
      rw [List.length_modify, hs.1]; exact hb
    rw [List.getD_eq_getElem?_getD, List.getElem?_eq_getElem hlt, Option.getD_some]
    exact hrows1 _ (List.getElem_mem _)
  have hlen0 := getD_length_of_square s hs a ha
  simp only [setBarrierThreshold, hcond, and_self, if_true, getBarrierThreshold, Int.toNat_ofNat,
    entry_modify_set, hlen1, hlen0, ha, hb, and_true]
  by_cases h1 : x = b ∧ y = a
  · simp [h1]
  · by_cases h2 : x = a ∧ y = b
    · simp [h2]
    · simp [h1, h2]

theorem setBarrierThreshold_isolations (s : System) (a b : Int) (t : ℚ) :
    (s.setBarrierThreshold a b t).isolations = s.isolations := by
  unfold setBarrierThreshold
  split <;> rfl

theorem setBarrierThreshold_square (s : System) (hs : s.SquareMatrix) (a b : Int) (t : ℚ) :
    (s.setBarrierThreshold a b t).SquareMatrix := by
  unfold setBarrierThreshold
  split
  · refine ⟨?_, ?_⟩
    · simpa using hs.1
    · exact modify_set_rows _ _ _ _ _ (modify_set_rows _ _ _ _ _ hs.2)
  · exact hs

theorem new_square (ext : External) (n : Int) (b d : ℚ) (s : System)
    (h : System.new ext n b d = some s) :
    s.SquareMatrix ∧ ∀ x y, s.getBarrierThreshold x y = 1 := by
  unfold System.new at h
  by_cases hn : n ≤ 0
  · simp [hn] at h
  · simp only [hn, if_false, Option.some.injEq] at h
    subst h
    refine ⟨⟨by simp [spawnInitialPopulation], ?_⟩, ?_⟩
    · intro row hrow
      simp only [spawnInitialPopulation, List.mem_replicate] at hrow
      simp [spawnInitialPopulation, hrow.2]
    · intro x y
      simp only [getBarrierThreshold, spawnInitialPopulation, List.getD_eq_getElem?_getD]
      by_cases hx : x < n.toNat
      · by_cases hy : y < n.toNat
        · simp [List.getElem?_replicate, hx, hy]
        · simp [List.getElem?_replicate, hx, hy]
      · simp [List.getElem?_replicate, hx]

theorem execute_square (ext : External) (s : System) (hs : s.SquareMatrix) (e : Event)
    (dr : Draws) : (e.execute ext s dr).SquareMatrix := by
  unfold SquareMatrix
  rw [execute_barrierThresholds, execute_isolations_length]
  exact hs

/-- Every reachable System has a square, symmetric barrier matrix. -/
theorem reachable_square_symmetric (ext : External) (s : System) (h : Reachable ext s) :
    s.SquareMatrix ∧ s.Symmetric := by
  induction h with
  | constructed n b d s hnew =>
      obtain ⟨hsq, hone⟩ := new_square ext n b d s hnew
      exact ⟨hsq, fun x y => by rw [hone, hone]⟩
  | barrierSet s a b t _ ih =>
      obtain ⟨hsq, hsym⟩ := ih
      refine ⟨setBarrierThreshold_square s hsq a b t, ?_⟩
      by_cases hv : 0 ≤ a ∧ a < (s.isolations.length : Int) ∧
          0 ≤ b ∧ b < (s.isolations.length : Int)
      · obtain ⟨ha0, ha, hb0, hb⟩ := hv
        lift a to Nat using ha0
        lift b to Nat using hb0
        intro x y
        rw [getBarrierThreshold_set s hsq a b t (by omega) (by omega),
          getBarrierThreshold_set s hsq a b t (by omega) (by omega), hsym x y]
        by_cases h1 : (x = a ∧ y = b) ∨ (x = b ∧ y = a)
        · have h2 : (y = a ∧ x = b) ∨ (y = b ∧ x = a) := by tauto
          simp [h1, h2]
        · have h2 : ¬ ((y = a ∧ x = b) ∨ (y = b ∧ x = a)) := by tauto
          simp [h1, h2]
      · have : s.setBarrierThreshold a b t = s := by
          unfold setBarrierThreshold; rw [if_neg hv]
        rw [this]; exact hsym
  | executed s e dr _ ih =>
      obtain ⟨hsq, hsym⟩ := ih
      refine ⟨execute_square ext s hsq e dr, fun x y => ?_⟩
      simp only [getBarrierThreshold, execute_barrierThresholds]
      exact hsym x y

end System

/-! ## Lemmas on event execution -/

namespace System

theorem getIsolation_natCast (s : System) (i : Nat) :
    s.getIsolation (i : Int) = s.isolations[i]? := by
  unfold getIsolation
  by_cases h : i < s.isolations.length
  · rw [if_pos ⟨by omega, by omega⟩, Int.toNat_ofNat]
  · rw [if_neg (by omega), List.getElem?_eq_none (by omega)]

theorem getIsolation_modifyIsolation_eq (s : System) (i : Nat) (f : Isolation → Isolation)
    (iso : Isolation) (h : s.getIsolation (i : Int) = some iso) :
    (s.modifyIsolation i f).getIsolation (i : Int) = some (f iso) := by
  rw [getIsolation_natCast] at h ⊢
  simp [modifyIsolation, List.getElem?_modify, h]

theorem getIsolation_modifyIsolation_ne (s : System) (i k : Nat) (f : Isolation → Isolation)
    (h : k ≠ i) :
    (s.modifyIsolation i f).getIsolation (k : Int) = s.getIsolation (k : Int) := by
  rw [getIsolation_natCast, getIsolation_natCast]
  have hne : ¬ i = k := fun e => h e.symm
  simp [modifyIsolation, List.getElem?_modify, hne]

/-- Applying a function that fixes the isolation behind the handle changes nothing. -/
theorem modifyIsolation_fixed (s : System) (i : Nat) (f : Isolation → Isolation)
    (h : ∀ iso, s.getIsolation (i : Int) = some iso → f iso = iso) :
    s.modifyIsolation i f = s := by
  have hl : s.isolations.modify f i = s.isolations := by
    apply List.ext_getElem?
    intro k
    rw [List.getElem?_modify]
    cases hk : s.isolations[k]? with
    | none => rfl
    | some iso =>
        by_cases hik : i = k
        · subst hik
          simp [h iso (by rw [getIsolation_natCast]; exact hk)]
        · simp [hik]
  unfold modifyIsolation
  rw [hl]

end System

/-- A mutation changes neither id, location nor parent of its pointee. -/
theorem mutation_execute_identity (p : UnitPopulation) (mutation : Int) :
    (PopulationMutationEvent.execute p mutation).getId = p.getId ∧
    (PopulationMutationEvent.execute p mutation).getLocationId = p.getLocationId ∧
    (PopulationMutationEvent.execute p mutation).getParentUnitId = p.getParentUnitId := by
  unfold PopulationMutationEvent.execute
  split_ifs <;> exact ⟨rfl, rfl, rfl⟩

theorem maybeMutate_identity (child : UnitPopulation) (rate dis : ℚ) (mutation : Int) :
    (maybeMutate child rate dis mutation).getId = child.getId ∧
    (maybeMutate child rate dis mutation).getLocationId = child.getLocationId ∧
    (maybeMutate child rate dis mutation).getParentUnitId = child.getParentUnitId := by
  unfold maybeMutate
  split
  · exact mutation_execute_identity child mutation
  · exact ⟨rfl, rfl, rfl⟩

theorem maybeMutate_of_not_lt (child : UnitPopulation) (rate dis : ℚ) (mutation : Int)
    (h : ¬ dis < rate) : maybeMutate child rate dis mutation = child := by
  unfold maybeMutate
  rw [if_neg h]

theorem residents_eq (s : System) (i : Nat) (iso : Isolation)
    (h : s.getIsolation (i : Int) = some iso) :
    Director.residents s i = iso.unitPopulations := by
  simp [Director.residents, h, Isolation.getUnitPopulations]

theorem mem_residents (s : System) (i : Nat) (p : UnitPopulation)
    (h : p ∈ Director.residents s i) :
    ∃ iso, s.getIsolation (i : Int) = some iso ∧ p ∈ iso.unitPopulations := by
  unfold Director.residents at h
  cases hg : s.getIsolation (i : Int) with
  | none => simp [hg] at h
  | some iso => exact ⟨iso, rfl, by simpa [hg, Isolation.getUnitPopulations] using h⟩

namespace System

theorem new_locationInvariant (ext : External) (n : Int) (b d : ℚ) (s : System)
    (h : System.new ext n b d = some s) : s.LocationInvariant := by
  unfold System.new at h
  by_cases hn : n ≤ 0
  · simp [hn] at h
  · simp only [hn, if_false, Option.some.injEq] at h
    subst h
    intro k iso hk p hp
    rw [getIsolation_natCast] at hk
    simp only [spawnInitialPopulation, List.getElem?_modify, List.getElem?_replicate] at hk
    by_cases hkn : k < n.toNat
    · simp only [hkn, if_true, Option.map_eq_map, Option.map_some', Option.some.injEq] at hk
      subst hk
      by_cases h0 : 0 = k
      · subst h0
        simp only [if_true, Isolation.addUnitPopulation, Isolation.getUnitPopulations,
          List.nil_append, List.mem_singleton] at hp
        subst hp
        rfl
      · simp [h0, Isolation.getUnitPopulations] at hp
    · simp [hkn] at hk

/-- Changing one isolation keeps the invariant when the new residents of that
isolation all carry its id. -/
theorem locationInvariant_modifyIsolation (s : System) (hinv : s.LocationInvariant) (i : Nat)
    (f : Isolation → Isolation)
    (hf : ∀ iso, s.getIsolation (i : Int) = some iso →
      ∀ p ∈ (f iso).unitPopulations, p.getLocationId = isolationId i) :
    (s.modifyIsolation i f).LocationInvariant := by
  intro k iso hk p hp
  by_cases hki : k = i
  · subst hki
    cases hg : s.getIsolation (k : Int) with
    | none =>
        rw [getIsolation_natCast] at hg hk
        simp [modifyIsolation, List.getElem?_modify, hg] at hk
    | some iso0 =>
        rw [getIsolation_modifyIsolation_eq s k f iso0 hg] at hk
        cases hk
        exact hf iso0 hg p hp
  · rw [getIsolation_modifyIsolation_ne s i k f hki] at hk
    exact hinv k iso hk p hp

theorem locationInvariant_execute (ext : External) (hext : ext.KeepsResidents) (s : System)
    (hinv : s.LocationInvariant) (e : Event) (dr : Draws) (ha : e.Applicable s) :
    (e.execute ext s dr).LocationInvariant := by
  rcases e with (⟨p, i, rate⟩ | ⟨p, i⟩ | ⟨p, i, j, rate⟩) | (⟨i, res⟩ | ⟨i, t⟩)
  · obtain ⟨iso0, hg0, hp0⟩ := mem_residents s i p ha
    apply locationInvariant_modifyIsolation s hinv
    intro iso hg q hq
    simp only [Isolation.addUnitPopulation, List.mem_append, List.mem_singleton] at hq
    rcases hq with hq | hq
    · exact hinv i iso hg q hq
    · subst hq
      rw [(maybeMutate_identity _ _ _ _).2.1]
      rw [hg0] at hg
      cases hg
      exact hinv i iso0 hg0 p hp0
  · apply locationInvariant_modifyIsolation s hinv
    intro iso hg q hq
    simp only [Isolation.removeUnitPopulation, List.mem_filter] at hq
    exact hinv i iso hg q hq.1
  · apply locationInvariant_modifyIsolation s hinv
    intro iso hg q hq
    simp only [Isolation.addUnitPopulation, List.mem_append, List.mem_singleton] at hq
    rcases hq with hq | hq
    · exact hinv j iso hg q hq
    · subst hq
      rw [(maybeMutate_identity _ _ _ _).2.1]
      rfl
  · apply locationInvariant_modifyIsolation s hinv
    intro iso hg q hq
    rw [(hext iso).1 res] at hq
    exact hinv i iso hg q hq
  · apply locationInvariant_modifyIsolation s hinv
    intro iso hg q hq
    rw [(hext iso).2 t] at hq
    exact hinv i iso hg q hq

theorem locationInvariant_mutateResident (s : System) (hinv : s.LocationInvariant)
    (i k : Nat) (mutation : Int) : (s.mutateResident i k mutation).LocationInvariant := by
  apply locationInvariant_modifyIsolation s hinv
  intro iso hg q hq
  obtain ⟨m, hm⟩ := List.mem_iff_getElem?.mp hq
  simp only [List.getElem?_modify] at hm
  cases hq0 : iso.unitPopulations[m]? with
  | none => simp [hq0] at hm
  | some q0 =>
      have hq0mem : q0 ∈ iso.unitPopulations := List.mem_iff_getElem?.mpr ⟨m, hq0⟩
      simp only [hq0, Option.map_eq_map, Option.map_some', Option.some.injEq] at hm
      subst hm
      split
      · rw [(mutation_execute_identity q0 mutation).2.1]
        exact hinv i iso hg q0 hq0mem
      · exact hinv i iso hg q0 hq0mem

/-- The data-model invariant holds in every System reached by event executions. -/
theorem eventReachable_locationInvariant (ext : External) (hext : ext.KeepsResidents)
    (s : System) (hr : EventReachable ext s) : s.LocationInvariant := by
  induction hr with
  | constructed n b d s hnew => exact new_locationInvariant ext n b d s hnew
  | executed s e dr _ ha ih => exact locationInvariant_execute ext hext s ih e dr ha
  | mutated s i m mutation _ ih => exact locationInvariant_mutateResident s ih i m mutation

end System

theorem sample_keepsResidents : External.sample.KeepsResidents :=
  fun _ => ⟨fun _ => rfl, fun _ => rfl⟩

theorem shipped_getIsolation_zero :
    Examples.shipped.system.getIsolation ((0 : Nat) : Int) =
      some (Examples.freshIsolation [Examples.seed]) := by
  simp [System.getIsolation, Examples.shipped]

theorem shipped_getIsolation_one :
    Examples.shipped.system.getIsolation ((1 : Nat) : Int) =
      some (Examples.freshIsolation []) := by
  simp [System.getIsolation, Examples.shipped]

theorem seed_resident_shipped : Examples.seed ∈ Director.residents Examples.shipped.system 0 := by
  simp [Director.residents, System.getIsolation, Examples.shipped, Examples.freshIsolation,
    Isolation.getUnitPopulations]

/-! ## Lemmas on truncation and on runs -/

theorem doubleToInt_eq_zero (x : ℚ) (h0 : 0 ≤ x) (h1 : x < 1) : doubleToInt x = 0 := by
  unfold doubleToInt
  rw [if_pos h0]
  exact Int.floor_eq_zero_iff.mpr ⟨h0, h1⟩

namespace Director

theorem sumRates_of_zero {α : Type} (l : List (Int × α)) (c : ℚ)
    (h : ∀ x ∈ l, x.1 = 0) : sumRates c l = c := by
  induction l generalizing c with
  | nil => rfl
  | cons x l ih =>
      rw [sumRates_cons, ih _ (fun y hy => h y (List.mem_cons_of_mem _ hy)),
        h x (List.mem_cons_self _ _)]
      simp

end Director

namespace Director

theorem runLoop_eq_runPrefix (ext : External) (maxTime : ℚ) (draws : List Draws) :
    ∀ (d : Director) (t : ℚ) (x : Director × ℚ),
      runLoop ext maxTime d t draws = some x → runPrefix ext maxTime d t draws = x := by
  induction draws with
  | nil =>
      intro d t x h
      simp only [runLoop] at h
      split at h
      · cases h
      · simpa [runPrefix] using h
  | cons dr rest ih =>
      intro d t x h
      simp only [runLoop] at h
      simp only [runPrefix]
      split at h
      · rename_i hlt
        rw [if_pos hlt]
        exact ih _ _ _ h
      · rename_i hlt
        rw [if_neg hlt]
        simpa using h

/-- Each log call of the dispatch appends at most one record, stamped with the
clock it is given. -/
theorem logEvent_history (o : Observer) (t : ℚ) (e : Event) :
    (logEvent o t e).eventHistory = o.eventHistory ∨
    ∃ r, (logEvent o t e).eventHistory = o.eventHistory ++ [r] ∧ r.eventTime = t := by
  rcases e with (⟨p, i, rate⟩ | ⟨p, i⟩ | ⟨p, i, j, rate⟩) | e
  · exact Or.inr ⟨_, rfl, rfl⟩
  · exact Or.inr ⟨_, rfl, rfl⟩
  · exact Or.inr ⟨_, rfl, rfl⟩
  · exact Or.inl rfl

/-- One iteration appends at most one record, stamped with the advanced clock. -/
theorem loopBody_history (ext : External) (d : Director) (t : ℚ) (dr : Draws) :
    (loopBody ext d t dr).1.observer.eventHistory = d.observer.eventHistory ∨
    ∃ r, (loopBody ext d t dr).1.observer.eventHistory = d.observer.eventHistory ++ [r] ∧
      r.eventTime = t + dr.waitingTime := by
  cases h : (sampleNextEvent (computeEventRates d) dr.waitingTime dr.threshold).2 with
  | none => rw [loopBody_none ext d t dr h]; exact Or.inl rfl
  | some e =>
      rw [loopBody_some ext d t dr e h]
      exact logEvent_history d.observer (t + dr.waitingTime) e

/-- The records a run appends: each carries one of the iteration clocks, all
but the last carry a time below `maxTime`, and none is appended unless the
loop was entered. -/
theorem runPrefix_history (ext : External) (maxTime : ℚ) (draws : List Draws) :
    ∀ (d : Director) (t : ℚ), ∃ new : List EventRecord,
      (runPrefix ext maxTime d t draws).1.observer.eventHistory =
        d.observer.eventHistory ++ new ∧
      (new ≠ [] → t < maxTime) ∧
      (∀ r ∈ new.dropLast, r.eventTime < maxTime) ∧
      (∀ r ∈ new, r.eventTime ∈ iterationClocks ext maxTime d t draws) := by
  induction draws with
  | nil =>
      intro d t
      exact ⟨[], by simp [runPrefix], fun h => absurd rfl h, by simp, by simp⟩
  | cons dr rest ih =>
      intro d t
      by_cases hlt : t < maxTime
      · obtain ⟨new₁, h1, h2, h3, h4⟩ :=
          ih (loopBody ext d t dr).1 (loopBody ext d t dr).2
        simp only [runPrefix, iterationClocks, if_pos hlt]
        rcases loopBody_history ext d t dr with hsame | ⟨r, hr, hrt⟩
        · refine ⟨new₁, by rw [h1, hsame], fun _ => hlt, h3, ?_⟩
          intro r hr
          exact List.mem_cons_of_mem _ (h4 r hr)
        · refine ⟨r :: new₁, by rw [h1, hr]; simp, fun _ => hlt, ?_, ?_⟩
          · intro q hq
            by_cases hne : new₁ = []
            · subst hne
              simp at hq
            · rw [List.dropLast_cons_of_ne_nil hne] at hq
              rcases List.mem_cons.mp hq with rfl | hq
              · rw [hrt, ← loopBody_snd ext d t dr]
                exact h2 hne
              · exact h3 q hq
          · intro q hq
            rcases List.mem_cons.mp hq with rfl | hq
            · rw [hrt, ← loopBody_snd ext d t dr]
              exact List.mem_cons_self _ _
            · exact List.mem_cons_of_mem _ (h4 q hq)
      · exact ⟨[], by simp [runPrefix, hlt], fun h => absurd rfl h, by simp, by simp⟩

/-- With non-negative waiting times the records a run appends are in
non-decreasing time order, none earlier than the clock the run started from. -/
theorem runPrefix_sorted (ext : External) (maxTime : ℚ) (draws : List Draws)
    (hw : ∀ dr ∈ draws, 0 ≤ dr.waitingTime) :
    ∀ (d : Director) (t : ℚ), ∃ new : List EventRecord,
      (runPrefix ext maxTime d t draws).1.observer.eventHistory =
        d.observer.eventHistory ++ new ∧
      (new.map EventRecord.eventTime).Pairwise (fun a b => a ≤ b) ∧
      (∀ r ∈ new, t ≤ r.eventTime) := by
  induction draws with
  | nil =>
      intro d t
      exact ⟨[], by simp [runPrefix], by simp, by simp⟩
  | cons dr rest ih =>
      intro d t
      have hw0 : 0 ≤ dr.waitingTime := hw dr (List.mem_cons_self _ _)
      by_cases hlt : t < maxTime
      · obtain ⟨new₁, h1, h2, h3⟩ :=
          ih (fun x hx => hw x (List.mem_cons_of_mem _ hx)) (loopBody ext d t dr).1
            (loopBody ext d t dr).2
        rw [loopBody_snd] at h3
        simp only [runPrefix, if_pos hlt]
        rcases loopBody_history ext d t dr with hsame | ⟨r, hr, hrt⟩
        · refine ⟨new₁, by rw [h1, hsame], h2, fun q hq => ?_⟩
          have := h3 q hq
          linarith
        · refine ⟨r :: new₁, by rw [h1, hr]; simp, ?_, ?_⟩
          · rw [List.map_cons, List.pairwise_cons]
            refine ⟨?_, h2⟩
            intro b hb
            obtain ⟨q, hq, rfl⟩ := List.mem_map.mp hb
            rw [hrt]
            exact h3 q hq
          · intro q hq
            rcases List.mem_cons.mp hq with rfl | hq
            · rw [hrt]; linarith
            · have := h3 q hq
              linarith
      · exact ⟨[], by simp [runPrefix, hlt], by simp, by simp⟩

/-- All iteration clocks but the last are below `maxTime`. -/
theorem iterationClocks_dropLast (ext : External) (maxTime : ℚ) (draws : List Draws) :
    ∀ (d : Director) (t : ℚ),
      (iterationClocks ext maxTime d t draws ≠ [] → t < maxTime) ∧
      ∀ c ∈ (iterationClocks ext maxTime d t draws).dropLast, c < maxTime := by
  induction draws with
  | nil =>
      intro d t
      exact ⟨fun h => absurd rfl h, by simp [iterationClocks]⟩
  | cons dr rest ih =>
      intro d t
      by_cases hlt : t < maxTime
      · obtain ⟨h1, h2⟩ := ih (loopBody ext d t dr).1 (loopBody ext d t dr).2
        simp only [iterationClocks, if_pos hlt]
        refine ⟨fun _ => hlt, ?_⟩
        intro c hc
        by_cases hne : iterationClocks ext maxTime (loopBody ext d t dr).1
            (loopBody ext d t dr).2 rest = []
        · rw [hne] at hc
          simp at hc
        · rw [List.dropLast_cons_of_ne_nil hne] at hc
          rcases List.mem_cons.mp hc with rfl | hc
          · exact h1 hne
          · exact h2 c hc
      · simp only [iterationClocks, if_neg hlt]
        exact ⟨fun h => absurd rfl h, by simp⟩

end Director

namespace Director

theorem runLoop_of_not_lt (ext : External) (maxTime : ℚ) (d : Director) (t : ℚ)
    (draws : List Draws) (h : ¬ t < maxTime) : runLoop ext maxTime d t draws = some (d, t) := by
  cases draws <;> simp [runLoop, h]

/-- The running sum at a position is the one before it plus the propensity there. -/
theorem cumulative_succ {α : Type} (l : List (Int × α)) (k : Nat) (r : Int) (e : α)
    (h : l[k + 1]? = some (r, e)) : cumulative l (k + 1) = cumulative l k + (r : ℚ) := by
  unfold cumulative
  rw [List.take_succ, h, sumRates_append]
  simp [sumRates]

theorem cumulative_zero {α : Type} (l : List (Int × α)) (r : Int) (e : α)
    (h : l[0]? = some (r, e)) : cumulative l 0 = (r : ℚ) := by
  unfold cumulative
  rw [List.take_succ, h]
  simp [sumRates]

end Director

/-! ## The claims -/

namespace Director

/-- C1 (evaluation at the failing input): for the Director built by
`Director(3, 0.5, 0.2)`, whose rates are 1/2 and 1/5, the catalog stored by
`computeEventRates` holds the Birth and the Death entry of the seed with stored
propensity 0, not 1/2 and 1/5: the `int` slot of the pair truncates the rate.
Likewise, with two isolations and barrier 1/2, the Immigration entry is stored
with propensity 0, not 1/2 * (1 - 1/2) = 1/4. -/
theorem C1_stored_propensity_truncated :
    Director.new External.sample 3 (1 / 2) (1 / 5) = some Examples.shipped ∧
    Examples.shipped.baseBirthRate = 1 / 2 ∧ Examples.shipped.baseDeathRate = 1 / 5 ∧
    (computeEventRates Examples.shipped).populationEvents =
      [((0 : Int), PopulationEvent.birth Examples.seed 0 (1 / 2)),
       ((0 : Int), PopulationEvent.death Examples.seed 0)] ∧
    Examples.twoOpen.system.getBarrierThreshold 0 1 = 1 / 2 ∧
    (computeEventRates Examples.twoOpen).populationEvents =
      [((0 : Int), PopulationEvent.birth Examples.seed 0 (1 / 2)),
       ((0 : Int), PopulationEvent.death Examples.seed 0),
       ((0 : Int), PopulationEvent.immigration Examples.seed 0 1 (1 / 2))] := by
  refine ⟨rfl, rfl, rfl, ?_, ?_, ?_⟩
  · norm_num [computeEventRates, residents, System.getIsolation, System.getNumberOfIsolations,
      populationEntries, immigrationEntries, System.getBarrierThreshold,
      Isolation.getUnitPopulations, Examples.shipped, Examples.freshIsolation,
      List.range_succ, doubleToInt]
  · norm_num [System.getBarrierThreshold, Examples.twoOpen]
  · norm_num [computeEventRates, residents, System.getIsolation, System.getNumberOfIsolations,
      populationEntries, immigrationEntries, System.getBarrierThreshold,
      Isolation.getUnitPopulations, Examples.twoOpen, Examples.freshIsolation,
      List.range_succ, doubleToInt]

/-- C2: for every catalog and every threshold `u` with `0 ≤ u < totalRate`,
`sampleNextEvent` returns the entry at the first position `k` of the walk
(population entries, then isolation entries) whose running cumulative sum is
`≥ u`: every earlier position has a running sum `< u`, and positions below
`populationEvents.length` are the population entries. -/
theorem C2_sampleNextEvent_first_match (d : Director) (waitingTime u : ℚ)
    (h0 : 0 ≤ u) (hu : u < totalRate d) :
    ∃ k r e, (catalog d)[k]? = some (r, e) ∧
      sampleNextEvent d waitingTime u = (waitingTime, some e) ∧
      u ≤ cumulative (catalog d) k ∧
      (∀ j, j < k → cumulative (catalog d) j < u) ∧
      (k < d.populationEvents.length → ∃ pe, e = Event.population pe) ∧
      (d.populationEvents.length ≤ k → ∃ ie, e = Event.isolation ie) := by
  rw [totalRate_eq_catalog] at hu
  have hne : catalog d ≠ [] := by
    intro hnil
    rw [hnil] at hu
    exact absurd hu (not_lt.mpr (by simpa [sumRates] using h0))
  obtain ⟨e, he⟩ := scan_some_of_le_total u (catalog d) hne hu.le
  obtain ⟨k, r, hk, hle, hmin⟩ := (scanEvents_spec u (catalog d) 0).1 e he
  refine ⟨k, r, e, hk, ?_, hle, hmin, catalog_getElem?_kind d k r e hk⟩
  rw [sampleNextEvent_eq_scan, he]
  rfl

/-- C2, witness: the one-isolation catalog walked with threshold 1/2. -/
theorem C2_witness :
    (0 : ℚ) ≤ 1 / 2 ∧ (1 / 2 : ℚ) < totalRate Examples.oneIsolation ∧
    ∃ k r e, (catalog Examples.oneIsolation)[k]? = some (r, e) ∧
      sampleNextEvent Examples.oneIsolation 1 (1 / 2) = (1, some e) ∧
      (1 / 2 : ℚ) ≤ cumulative (catalog Examples.oneIsolation) k ∧
      (∀ j, j < k → cumulative (catalog Examples.oneIsolation) j < 1 / 2) ∧
      (k < Examples.oneIsolation.populationEvents.length → ∃ pe, e = Event.population pe) ∧
      (Examples.oneIsolation.populationEvents.length ≤ k → ∃ ie, e = Event.isolation ie) :=
  ⟨by norm_num, by norm_num [totalRate, sumRates, Examples.oneIsolation],
   C2_sampleNextEvent_first_match Examples.oneIsolation 1 (1 / 2) (by norm_num)
     (by norm_num [totalRate, sumRates, Examples.oneIsolation])⟩

/-- C4, counterexample: on the non-empty one-isolation catalog (total 1) the
threshold 2 is reached by no running sum and `sampleNextEvent` returns no event
(`nullptr`), not the last entry. -/
theorem C4_counterexample :
    catalog Examples.oneIsolation ≠ [] ∧
    sampleNextEvent Examples.oneIsolation 1 2 = (1, none) := by
  constructor
  · simp [catalog, Examples.oneIsolation]
  · norm_num [sampleNextEvent, scanEvents, Examples.oneIsolation]

/-- C4 (amended): for every non-empty catalog and every threshold
`u ≤ totalRate`, `sampleNextEvent` returns an event; and whenever no entry's
running cumulative sum reaches the threshold it returns no event (`nullptr`,
the final `return` of the method). -/
theorem C4_sampleNextEvent_some_or_none (d : Director) (waitingTime u : ℚ) :
    (catalog d ≠ [] → u ≤ totalRate d →
      ∃ e, sampleNextEvent d waitingTime u = (waitingTime, some e)) ∧
    ((∀ k, k < (catalog d).length → cumulative (catalog d) k < u) →
      sampleNextEvent d waitingTime u = (waitingTime, none)) := by
  constructor
  · intro hne hu
    rw [totalRate_eq_catalog] at hu
    obtain ⟨e, he⟩ := scan_some_of_le_total u (catalog d) hne hu
    exact ⟨e, by rw [sampleNextEvent_eq_scan, he]; rfl⟩
  · intro hall
    rw [sampleNextEvent_eq_scan]
    cases h : scanEvents u 0 (catalog d) with
    | inr c => rfl
    | inl e =>
        exfalso
        obtain ⟨k, r, hk, hle, _⟩ := (scanEvents_spec u (catalog d) 0).1 e h
        have hlt : k < (catalog d).length := by
          by_contra hge
          rw [List.getElem?_eq_none (by omega)] at hk
          cases hk
        exact absurd hle (not_le.mpr (hall k hlt))

/-- C4, witness: threshold 1 returns an event, threshold 2 returns none. -/
theorem C4_witness :
    (∃ e, sampleNextEvent Examples.oneIsolation 1 1 = (1, some e)) ∧
    sampleNextEvent Examples.oneIsolation 1 2 = (1, none) :=
  ⟨(C4_sampleNextEvent_some_or_none Examples.oneIsolation 1 1).1
      (by simp [catalog, Examples.oneIsolation])
      (by norm_num [totalRate, sumRates, Examples.oneIsolation]),
   (C4_sampleNextEvent_some_or_none Examples.oneIsolation 1 2).2 (by
      intro k hk
      have hk4 : k < 4 := by simpa [catalog, Examples.oneIsolation] using hk
      interval_cases k <;>
        norm_num [cumulative, catalog, sumRates, Examples.oneIsolation])⟩

/-- C5: for every isolation `i`, resident `p` of `i` and isolation index `j`,
the rebuilt catalog holds an Immigration entry for `(p, i → j)` if and only if
`j ≠ i` and `barrier(i, j) < 1`; hence none when the barrier is exactly 1 and
none from an isolation to itself. -/
theorem C5_immigration_entry_iff (d : Director) (i j : Nat) (iso : Isolation)
    (p : UnitPopulation) (hi : d.system.getIsolation (i : Int) = some iso)
    (hp : p ∈ iso.getUnitPopulations) (hj : j < d.system.getNumberOfIsolations) :
    ((∃ r rate, (r, PopulationEvent.immigration p i j rate) ∈
        (computeEventRates d).populationEvents) ↔
      (j ≠ i ∧ d.system.getBarrierThreshold i j < 1)) ∧
    (d.system.getBarrierThreshold i j = 1 →
      ∀ r rate, (r, PopulationEvent.immigration p i j rate) ∉
        (computeEventRates d).populationEvents) ∧
    (∀ r rate, (r, PopulationEvent.immigration p i i rate) ∉
        (computeEventRates d).populationEvents) := by
  have key : ∀ (k : Nat) (r : Int) (rate : ℚ),
      (r, PopulationEvent.immigration p i k rate) ∈ (computeEventRates d).populationEvents →
        k ≠ i ∧ d.system.getBarrierThreshold i k < 1 := by
    intro k r rate hmem
    obtain ⟨i', _, q, _, hx⟩ := (mem_populationEvents d _).1 hmem
    simp only [populationEntries, List.mem_cons, Prod.mk.injEq, reduceCtorEq, and_false,
      false_or] at hx
    obtain ⟨j', _, hne, hb, hx⟩ := (mem_immigrationEntries _ _ _ _ _).1 hx
    simp only [Prod.mk.injEq, PopulationEvent.immigration.injEq] at hx
    obtain ⟨_, _, hi', hj', _⟩ := hx
    subst hi' hj'
    exact ⟨fun h => hne h.symm, hb⟩
  refine ⟨⟨fun ⟨r, rate, h⟩ => key j r rate h, fun ⟨hne, hb⟩ => ?_⟩, ?_, ?_⟩
  · refine ⟨doubleToInt (d.baseBirthRate * (1 - d.system.getBarrierThreshold i j)),
      d.baseBirthRate, (mem_populationEvents d _).2
      ⟨i, getIsolation_some_lt _ _ _ hi, p, ?_, ?_⟩⟩
    · rw [residents_of_getIsolation _ _ _ hi]; exact hp
    · simp only [populationEntries, List.mem_cons]
      right; right
      exact (mem_immigrationEntries _ _ _ _ _).2 ⟨j, hj, fun h => hne h.symm, hb, rfl⟩
  · intro h1 r rate hmem
    exact absurd (key j r rate hmem).2 (by rw [h1]; exact lt_irrefl _)
  · intro r rate hmem
    exact (key i r rate hmem).1 rfl

/-- C5, witness: on two isolations with barrier 1/2 the seed of isolation 0
has an Immigration entry towards isolation 1. -/
theorem C5_witness :
    (∃ r rate, (r, PopulationEvent.immigration Examples.seed 0 1 rate) ∈
        (computeEventRates Examples.twoOpen).populationEvents) ↔
      ((1 : Nat) ≠ 0 ∧ Examples.twoOpen.system.getBarrierThreshold 0 1 < 1) :=
  (C5_immigration_entry_iff Examples.twoOpen 0 1 (Examples.freshIsolation [Examples.seed])
    Examples.seed (by simp [System.getIsolation, Examples.twoOpen])
    (by simp [Isolation.getUnitPopulations, Examples.freshIsolation])
    (by simp [System.getNumberOfIsolations, Examples.twoOpen])).1

/-- C6 (Scenario A): from `Director(1, 1.0, 0.0)`, in every state reached by the
loop and for every uniform draw `u` with `0 ≤ u < totalRate`, the event that
`sampleNextEvent` selects from the rebuilt catalog is a Birth event. -/
theorem C6_scenarioA_only_birth (ext : External) (d0 d : Director) (w u : ℚ)
    (h0 : Director.new ext 1 1 0 = some d0) (hr : Reachable ext d0 d)
    (hu0 : 0 ≤ u) (hu : u < totalRate (computeEventRates d)) :
    ∃ p iso rate, (sampleNextEvent (computeEventRates d) w u).2 =
      some (Event.population (PopulationEvent.birth p iso rate)) := by
  obtain ⟨_, hb0, hd0, hlen0, _⟩ := new_props ext 1 1 0 d0 h0
  obtain ⟨hb, hd, hlen, _⟩ := reachable_invariant ext d0 d hr
  have hN : d.system.isolations.length = 1 := by rw [hlen, hlen0]; rfl
  obtain ⟨hpe, hie⟩ := computeEventRates_scenarioA d hN (hb.trans hb0) (hd.trans hd0)
  have htotal : totalRate (computeEventRates d) = ((residents d.system 0).length : ℚ) := by
    rw [totalRate, hpe, hie, sumRates_birthDeath, sumRates_cons, sumRates_cons]
    simp [sumRates]
  rw [htotal] at hu
  rcases scan_birthDeath u (residents d.system 0) 0 with ⟨p, hp⟩ | ⟨_, hne⟩
  · exact ⟨p, 0, 1, by simp [sampleNextEvent, hpe, hp]⟩
  · exfalso
    by_cases hps : residents d.system 0 = []
    · rw [hps] at hu
      simp at hu
      linarith
    · have := hne hps
      linarith

/-- C6, witness: the constructed `Director(1, 1.0, 0.0)` itself, draw `u = 0`. -/
theorem C6_witness :
    Director.new External.sample 1 1 0 = some Examples.scenarioA ∧
    (0 : ℚ) < totalRate (computeEventRates Examples.scenarioA) ∧
    ∃ p iso rate, (sampleNextEvent (computeEventRates Examples.scenarioA) 1 0).2 =
      some (Event.population (PopulationEvent.birth p iso rate)) :=
  have ht : (0 : ℚ) < totalRate (computeEventRates Examples.scenarioA) := by
    norm_num [totalRate, sumRates, computeEventRates, residents, System.getIsolation,
      System.getNumberOfIsolations, populationEntries, immigrationEntries,
      Isolation.getUnitPopulations, isolationEntries, Examples.scenarioA,
      Examples.freshIsolation, List.range_succ, doubleToInt]
  ⟨rfl, ht, C6_scenarioA_only_birth External.sample Examples.scenarioA Examples.scenarioA 1 0
    rfl Reachable.start (le_refl 0) ht⟩

/-- C7 (Scenario B): from any Director with two isolations whose barrier
reads 1 in both directions (as after construction), in every state reached by
any number of loop iterations and event executions (BarrierThresholdChange and
ResourceAvailabilityChange included, for every implementation of the absent
Isolation setters), the rebuilt catalog holds no Immigration entry and
`sampleNextEvent` never returns one. -/
theorem C7_scenarioB_no_immigration (ext : External) (d0 d : Director)
    (hN : d0.system.getNumberOfIsolations = 2)
    (h01 : d0.system.getBarrierThreshold 0 1 = 1)
    (h10 : d0.system.getBarrierThreshold 1 0 = 1)
    (hr : Reachable ext d0 d) :
    (∀ r p i j rate, (r, PopulationEvent.immigration p i j rate) ∉
        (computeEventRates d).populationEvents) ∧
    (∀ w u p i j rate, (sampleNextEvent (computeEventRates d) w u).2 ≠
        some (Event.population (PopulationEvent.immigration p i j rate))) := by
  obtain ⟨_, _, hlen, hbar⟩ := reachable_invariant ext d0 d hr
  have hN2 : d.system.getNumberOfIsolations = 2 := by
    simpa [System.getNumberOfIsolations, hlen] using hN
  have hb : ∀ x y, d.system.getBarrierThreshold x y = d0.system.getBarrierThreshold x y := by
    intro x y; simp [System.getBarrierThreshold, hbar]
  have hno : ∀ r p i j rate, (r, PopulationEvent.immigration p i j rate) ∉
      (computeEventRates d).populationEvents := by
    intro r p i j rate hmem
    obtain ⟨i', hi', q, _, hx⟩ := (mem_populationEvents d _).1 hmem
    simp only [populationEntries, List.mem_cons, Prod.mk.injEq, reduceCtorEq, and_false,
      false_or] at hx
    obtain ⟨j', hj', hne, hlt, _⟩ := (mem_immigrationEntries _ _ _ _ _).1 hx
    rw [hN2] at hi' hj'
    rw [hb] at hlt
    have hcases : (i' = 0 ∧ j' = 1) ∨ (i' = 1 ∧ j' = 0) := by omega
    rcases hcases with ⟨rfl, rfl⟩ | ⟨rfl, rfl⟩
    · rw [h01] at hlt; exact lt_irrefl _ hlt
    · rw [h10] at hlt; exact lt_irrefl _ hlt
  refine ⟨hno, ?_⟩
  intro w u p i j rate hsel
  obtain ⟨r, hmem⟩ := sampleNextEvent_population_mem _ w u _ hsel
  exact hno r p i j rate hmem

/-- C7, witness: `Director(2, 0.5, 0.2)` after a BarrierThresholdChange on
isolation 0 followed by one loop iteration. -/
theorem C7_witness :
    Director.new External.sample 2 (1 / 2) (1 / 5) = some Examples.twoClosed ∧
    (∀ r p i j rate, (r, PopulationEvent.immigration p i j rate) ∉
        (computeEventRates (loopBody External.sample Examples.afterBarrierChange 0
          Examples.draws).1).populationEvents) ∧
    (∀ w u p i j rate,
      (sampleNextEvent (computeEventRates (loopBody External.sample Examples.afterBarrierChange 0
          Examples.draws).1) w u).2 ≠
        some (Event.population (PopulationEvent.immigration p i j rate))) :=
  ⟨rfl, C7_scenarioB_no_immigration External.sample Examples.twoClosed
    (loopBody External.sample Examples.afterBarrierChange 0 Examples.draws).1
    (by simp [System.getNumberOfIsolations, Examples.twoClosed])
    (by simp [System.getBarrierThreshold, Examples.twoClosed])
    (by simp [System.getBarrierThreshold, Examples.twoClosed])
    (Reachable.step _ 0 Examples.draws
      (Reachable.executed _ (Event.isolation (IsolationEvent.barrierThresholdChange 0 (1 / 2)))
        Examples.draws Reachable.start))⟩

/-- C8: for every Director state and every `maxTime ≤ 0`, `runSimulation`
returns with no loop iteration performed: the whole Director (event log,
isolations and their residents, catalog) is the one it started from, whatever
draws are available. -/
theorem C8_runSimulation_nonpositive_budget (ext : External) (d : Director) (maxTime : ℚ)
    (draws : List Draws) (h : maxTime ≤ 0) : runSimulation ext d maxTime draws = some d := by
  have hlt : ¬ (0 : ℚ) < maxTime := not_lt.mpr h
  cases draws <;> simp [runSimulation, runLoop, hlt]

/-- C8, witness: `Director(3, 0.5, 0.2)` run with `maxTime = 0` keeps its empty
log and its state. -/
theorem C8_witness :
    Director.new External.sample 3 (1 / 2) (1 / 5) = some Examples.shipped ∧
    Examples.shipped.observer.eventHistory = [] ∧
    runSimulation External.sample Examples.shipped 0 [Examples.draws] = some Examples.shipped :=
  ⟨rfl, rfl, C8_runSimulation_nonpositive_budget External.sample Examples.shipped 0
    [Examples.draws] (le_refl 0)⟩

end Director

namespace System

/-- C9: the barrier matrix is symmetric in every reachable System state.  A
constructed System has the `N × N` matrix with every entry 1, which is
symmetric; and in every System reached from a construction by barrier updates
and event executions the matrix is symmetric, and for every valid pair `(a, b)`
and threshold `t`, `setBarrierThreshold(a, b, t)` yields a matrix with
`entry(a,b) = entry(b,a) = t`, every other entry unchanged, and
`entry(x,y) = entry(y,x)` for all `x, y`. -/
theorem C9_barrier_matrix_symmetric (ext : External) :
    (∀ (n : Int) (b d : ℚ), 0 < n → ∃ s, System.new ext n b d = some s ∧
      s.barrierThresholds = List.replicate n.toNat (List.replicate n.toNat 1) ∧
      (∀ x y, s.getBarrierThreshold x y = 1) ∧ s.Symmetric) ∧
    (∀ s, Reachable ext s → s.Symmetric ∧
      ∀ (a b : Nat) (t : ℚ), a < s.getNumberOfIsolations → b < s.getNumberOfIsolations →
        (s.setBarrierThreshold (a : Int) (b : Int) t).getBarrierThreshold a b = t ∧
        (s.setBarrierThreshold (a : Int) (b : Int) t).getBarrierThreshold b a = t ∧
        (∀ x y, ¬ (x = a ∧ y = b) → ¬ (x = b ∧ y = a) →
          (s.setBarrierThreshold (a : Int) (b : Int) t).getBarrierThreshold x y =
            s.getBarrierThreshold x y) ∧
        (s.setBarrierThreshold (a : Int) (b : Int) t).Symmetric) := by
  constructor
  · intro n b d hn
    have hsome : ∃ s, System.new ext n b d = some s := by
      unfold System.new
      rw [if_neg (not_le.mpr hn)]
      exact ⟨_, rfl⟩
    obtain ⟨s, hs⟩ := hsome
    obtain ⟨_, hone⟩ := new_square ext n b d s hs
    refine ⟨s, hs, ?_, hone, fun x y => by rw [hone, hone]⟩
    unfold System.new at hs
    rw [if_neg (not_le.mpr hn)] at hs
    simp only [Option.some.injEq] at hs
    subst hs
    rfl
  · intro s hs
    obtain ⟨hsq, hsym⟩ := reachable_square_symmetric ext s hs
    refine ⟨hsym, fun a b t ha hb => ?_⟩
    have hset := getBarrierThreshold_set s hsq a b t ha hb
    refine ⟨by rw [hset]; simp, by rw [hset]; simp, ?_, ?_⟩
    · intro x y h1 h2
      rw [hset]
      simp [h1, h2]
    · exact (reachable_square_symmetric ext _ (Reachable.barrierSet s a b t hs)).2

/-- C9, witness: the System of `Director(3, 0.5, 0.2)` and the valid pair (0, 1). -/
theorem C9_witness :
    (∃ s, System.new External.sample 3 (1 / 2) (1 / 5) = some s ∧
      s.barrierThresholds = List.replicate (3 : Int).toNat (List.replicate (3 : Int).toNat 1) ∧
      (∀ x y, s.getBarrierThreshold x y = 1) ∧ s.Symmetric) ∧
    System.new External.sample 3 (1 / 2) (1 / 5) = some Examples.shipped.system ∧
    (Examples.shipped.system.setBarrierThreshold ((0 : Nat) : Int) ((1 : Nat) : Int)
        (1 / 2)).getBarrierThreshold 0 1 = 1 / 2 ∧
    (Examples.shipped.system.setBarrierThreshold ((0 : Nat) : Int) ((1 : Nat) : Int)
        (1 / 2)).getBarrierThreshold 1 0 = 1 / 2 ∧
    (∀ x y, ¬ (x = 0 ∧ y = 1) → ¬ (x = 1 ∧ y = 0) →
      (Examples.shipped.system.setBarrierThreshold ((0 : Nat) : Int) ((1 : Nat) : Int)
          (1 / 2)).getBarrierThreshold x y = Examples.shipped.system.getBarrierThreshold x y) ∧
    (Examples.shipped.system.setBarrierThreshold ((0 : Nat) : Int) ((1 : Nat) : Int)
        (1 / 2)).Symmetric :=
  ⟨(C9_barrier_matrix_symmetric External.sample).1 3 (1 / 2) (1 / 5) (by norm_num), rfl,
    ((C9_barrier_matrix_symmetric External.sample).2 Examples.shipped.system
      (Reachable.constructed 3 (1 / 2) (1 / 5) _ rfl)).2 0 1 (1 / 2)
      (by simp [getNumberOfIsolations, Examples.shipped])
      (by simp [getNumberOfIsolations, Examples.shipped])⟩

/-- C10: when `a` or `b` lies outside `[0, N)`, `setBarrierThreshold(a, b, t)`
returns normally and leaves the whole System state as it was. -/
theorem C10_setBarrierThreshold_invalid_pair (s : System) (a b : Int) (t : ℚ)
    (h : a < 0 ∨ (s.getNumberOfIsolations : Int) ≤ a ∨ b < 0 ∨
      (s.getNumberOfIsolations : Int) ≤ b) :
    s.setBarrierThreshold a b t = s := by
  unfold System.setBarrierThreshold
  rw [if_neg]
  unfold System.getNumberOfIsolations at h
  omega

/-- C10, witness: index 3 is not an isolation of the three-isolation System. -/
theorem C10_witness :
    Examples.shipped.system.setBarrierThreshold 3 0 (1 / 2) = Examples.shipped.system :=
  C10_setBarrierThreshold_invalid_pair Examples.shipped.system 3 0 (1 / 2)
    (Or.inr (Or.inl (by simp [System.getNumberOfIsolations, Examples.shipped])))

end System

namespace System

/-- C11: index-based accessors fail exactly on out-of-range indices.
`getIsolation(index)` raises iff `index < 0` or `index ≥ N` and otherwise
returns the isolation at that index; the four `NicheSpaces` accessors raise iff
`index ≥` the number of dimensions, a getter in range returns the field of the
dimension at that index, and a failing setter leaves the `NicheSpaces`
unchanged. -/
theorem C11_accessors_fail_exactly_out_of_range (s : System) (index : Int) (n : NicheSpaces)
    (i : Nat) (x : ℚ) :
    (s.getIsolation index = none ↔ (index < 0 ∨ (s.getNumberOfIsolations : Int) ≤ index)) ∧
    (0 ≤ index → index < (s.getNumberOfIsolations : Int) →
      ∃ iso, s.isolations[index.toNat]? = some iso ∧ s.getIsolation index = some iso) ∧
    (n.getOccupiedSpace i = none ↔ n.getNumberOfDimensions ≤ i) ∧
    (n.getAvailableSpace i = none ↔ n.getNumberOfDimensions ≤ i) ∧
    (∀ dim, n.dimensions[i]? = some dim →
      n.getOccupiedSpace i = some dim.occupiedSpace ∧
      n.getAvailableSpace i = some dim.availableSpace) ∧
    ((n.setOccupiedSpace i x).1 = Except.error "Index out of bounds" ↔
      n.getNumberOfDimensions ≤ i) ∧
    ((n.setAvailableSpace i x).1 = Except.error "Index out of bounds" ↔
      n.getNumberOfDimensions ≤ i) ∧
    (n.getNumberOfDimensions ≤ i →
      (n.setOccupiedSpace i x).2 = n ∧ (n.setAvailableSpace i x).2 = n) ∧
    (i < n.getNumberOfDimensions →
      (n.setOccupiedSpace i x).1 = Except.ok () ∧ (n.setAvailableSpace i x).1 = Except.ok ()) := by
  have hsome : 0 ≤ index → index < (s.getNumberOfIsolations : Int) →
      ∃ iso, s.isolations[index.toNat]? = some iso ∧ s.getIsolation index = some iso := by
    intro h0 hlt
    have hnat : index.toNat < s.isolations.length := by
      unfold getNumberOfIsolations at hlt; omega
    refine ⟨s.isolations[index.toNat], List.getElem?_eq_getElem hnat, ?_⟩
    unfold getIsolation
    rw [if_pos ⟨h0, by simpa [getNumberOfIsolations] using hlt⟩]
    exact List.getElem?_eq_getElem hnat
  refine ⟨⟨fun hnone => ?_, fun hout => ?_⟩, hsome, ?_, ?_, ?_, ?_, ?_, ?_, ?_⟩
  · by_contra hin
    have h0 : 0 ≤ index := by omega
    have hlt : index < (s.getNumberOfIsolations : Int) := by omega
    obtain ⟨iso, _, hget⟩ := hsome h0 hlt
    rw [hnone] at hget
    cases hget
  · unfold getIsolation
    rw [if_neg]
    unfold getNumberOfIsolations at hout
    omega
  · unfold NicheSpaces.getOccupiedSpace NicheSpaces.getNumberOfDimensions
    split <;> simp <;> omega
  · unfold NicheSpaces.getAvailableSpace NicheSpaces.getNumberOfDimensions
    split <;> simp <;> omega
  · intro dim hdim
    have hlt : i < n.dimensions.length := by
      by_contra hge
      rw [List.getElem?_eq_none (by omega)] at hdim
      cases hdim
    have hd : n.dimensions[i] = dim := by
      rw [List.getElem?_eq_getElem hlt] at hdim
      exact Option.some.inj hdim
    simp [NicheSpaces.getOccupiedSpace, NicheSpaces.getAvailableSpace, hlt, hd]
  · unfold NicheSpaces.setOccupiedSpace NicheSpaces.getNumberOfDimensions
    split <;> simp <;> omega
  · unfold NicheSpaces.setAvailableSpace NicheSpaces.getNumberOfDimensions
    split <;> simp <;> omega
  · intro hge
    have hnot : ¬ i < n.dimensions.length := by
      unfold NicheSpaces.getNumberOfDimensions at hge; omega
    simp [NicheSpaces.setOccupiedSpace, NicheSpaces.setAvailableSpace, hnot]
  · intro hlt
    have hin : i < n.dimensions.length := hlt
    simp [NicheSpaces.setOccupiedSpace, NicheSpaces.setAvailableSpace, hin]

/-- C11, witness: isolation index 3 of the three-isolation System and niche
dimension 5 of a three-dimensional `NicheSpaces` are out of range, index 0 is
in range. -/
theorem C11_witness :
    Examples.shipped.system.getIsolation 3 = none ∧
    (∃ iso, Examples.shipped.system.isolations[(0 : Int).toNat]? = some iso ∧
      Examples.shipped.system.getIsolation 0 = some iso) ∧
    (Examples.freshIsolation []).nicheSpaces.getOccupiedSpace 5 = none ∧
    ((Examples.freshIsolation []).nicheSpaces.setOccupiedSpace 5 7).2 =
      (Examples.freshIsolation []).nicheSpaces ∧
    ((Examples.freshIsolation []).nicheSpaces.setAvailableSpace 5 7).2 =
      (Examples.freshIsolation []).nicheSpaces :=
  have hdim : (Examples.freshIsolation []).nicheSpaces.getNumberOfDimensions ≤ 5 := by
    simp [NicheSpaces.getNumberOfDimensions, Examples.freshIsolation, External.sample]
  ⟨(C11_accessors_fail_exactly_out_of_range Examples.shipped.system 3
      (Examples.freshIsolation []).nicheSpaces 5 7).1.2
      (Or.inr (by simp [getNumberOfIsolations, Examples.shipped])),
   (C11_accessors_fail_exactly_out_of_range Examples.shipped.system 0
      (Examples.freshIsolation []).nicheSpaces 5 7).2.1 (le_refl 0)
      (by simp [getNumberOfIsolations, Examples.shipped]),
   (C11_accessors_fail_exactly_out_of_range Examples.shipped.system 0
      (Examples.freshIsolation []).nicheSpaces 5 7).2.2.1.2 hdim,
   (C11_accessors_fail_exactly_out_of_range Examples.shipped.system 0
      (Examples.freshIsolation []).nicheSpaces 5 7).2.2.2.2.2.2.2.1 hdim⟩


/-- C12: for a population `p` resident on isolation `i` (in a System that
satisfies the data-model invariant `locationId` = isolation), executing a Birth
event for `(p, i)` whose coin flip does not fire (`dis ≥ mutationRate`) turns
`i`'s resident list into the old list with exactly one population appended: id
`p.id + 1`, parent `p.id`, `locationId` that of `p`, which is `i`, and the four
traits of `p`.  `p`, every other isolation and the other members of the System
are unchanged. -/
theorem C12_birth_appends_child (ext : External) (s : System) (hinv : s.LocationInvariant)
    (i : Nat) (iso : Isolation) (p : UnitPopulation) (rate : ℚ) (dr : Draws)
    (hi : s.getIsolation (i : Int) = some iso) (hp : p ∈ iso.getUnitPopulations)
    (hcoin : ¬ dr.dis < rate) :
    ∃ child,
      ((Event.population (PopulationEvent.birth p i rate)).execute ext s dr).getIsolation
          (i : Int) =
        some { iso with unitPopulations := iso.unitPopulations ++ [child] } ∧
      child.getId = p.getId + 1 ∧ child.getParentUnitId = some p.getId ∧
      child.getLocationId = p.getLocationId ∧ child.getLocationId = isolationId i ∧
      child.getMutationRate = p.getMutationRate ∧ child.getMobility = p.getMobility ∧
      child.getResourceUsePerNiche = p.getResourceUsePerNiche ∧
      child.getReproductivity = p.getReproductivity ∧
      p ∈ iso.unitPopulations ++ [child] ∧
      (∀ k : Nat, k ≠ i →
        ((Event.population (PopulationEvent.birth p i rate)).execute ext s dr).getIsolation
          (k : Int) = s.getIsolation (k : Int)) ∧
      ((Event.population (PopulationEvent.birth p i rate)).execute ext s dr).barrierThresholds =
        s.barrierThresholds ∧
      ((Event.population (PopulationEvent.birth p i rate)).execute ext s dr).nextPopulationId =
        s.nextPopulationId := by
  refine ⟨spawnChild p p.getLocationId, ?_, rfl, rfl, rfl, hinv i iso hi p hp, rfl, rfl, rfl,
    rfl, List.mem_append_left _ hp, ?_, rfl, rfl⟩
  · simp only [Event.execute, PopulationBirthEvent.execute, maybeMutate_of_not_lt _ _ _ _ hcoin]
    rw [getIsolation_modifyIsolation_eq s i _ iso hi]
    rfl
  · intro k hk
    simp only [Event.execute, PopulationBirthEvent.execute]
    exact getIsolation_modifyIsolation_ne s i k _ hk

/-- C12, witness: a Birth of the seed on isolation 0 of `System(3, 0.5, 0.2)`
with coin 3/4 against rate 1/2. -/
theorem C12_witness :
    ∃ child,
      ((Event.population (PopulationEvent.birth Examples.seed 0 (1 / 2))).execute
          External.sample Examples.shipped.system Examples.draws).getIsolation ((0 : Nat) : Int) =
        some { Examples.freshIsolation [Examples.seed] with
          unitPopulations := (Examples.freshIsolation [Examples.seed]).unitPopulations ++ [child] } ∧
      child.getId = Examples.seed.getId + 1 ∧ child.getLocationId = isolationId 0 := by
  obtain ⟨child, h1, h2, _, _, h5, _⟩ :=
    C12_birth_appends_child External.sample Examples.shipped.system
      (new_locationInvariant External.sample 3 (1 / 2) (1 / 5) _ rfl) 0
      (Examples.freshIsolation [Examples.seed]) Examples.seed (1 / 2) Examples.draws
      shipped_getIsolation_zero
      (by simp [Isolation.getUnitPopulations, Examples.freshIsolation])
      (by norm_num [Examples.draws])
  exact ⟨child, h1, h2, h5⟩


/-- C13: for a population `p` resident on source isolation `i` and a target
isolation `j ≠ i`, executing an Immigration event for `(p, i → j)` appends
exactly one new population to `j`'s resident list, with `locationId = j` and
`parentId = p.id` (whether or not the coin flip mutates it), and leaves the
resident list of `i` unchanged: `p` is neither removed nor altered.  Every
isolation other than `j` is unchanged. -/
theorem C13_immigration_appends_on_target (ext : External) (s : System) (i j : Nat)
    (isoI isoJ : Isolation) (p : UnitPopulation) (rate : ℚ) (dr : Draws)
    (hi : s.getIsolation (i : Int) = some isoI) (hp : p ∈ isoI.getUnitPopulations)
    (hj : s.getIsolation (j : Int) = some isoJ) (hij : j ≠ i) :
    ∃ child,
      ((Event.population (PopulationEvent.immigration p i j rate)).execute ext s
          dr).getIsolation (j : Int) =
        some { isoJ with unitPopulations := isoJ.unitPopulations ++ [child] } ∧
      child.getLocationId = (j : Int) ∧ child.getParentUnitId = some p.getId ∧
      child.getId = p.getId + 1 ∧
      ((Event.population (PopulationEvent.immigration p i j rate)).execute ext s
          dr).getIsolation (i : Int) = some isoI ∧
      p ∈ isoI.getUnitPopulations ∧
      (∀ k : Nat, k ≠ j →
        ((Event.population (PopulationEvent.immigration p i j rate)).execute ext s
          dr).getIsolation (k : Int) = s.getIsolation (k : Int)) := by
  have hid := maybeMutate_identity (spawnChild p (isolationId j)) rate dr.dis dr.mutationType
  refine ⟨maybeMutate (spawnChild p (isolationId j)) rate dr.dis dr.mutationType, ?_,
    hid.2.1.trans rfl, hid.2.2.trans rfl, hid.1.trans rfl, ?_, hp, ?_⟩
  · simp only [Event.execute, PopulationImmigrationEvent.execute]
    rw [getIsolation_modifyIsolation_eq s j _ isoJ hj]
    rfl
  · simp only [Event.execute, PopulationImmigrationEvent.execute]
    rw [getIsolation_modifyIsolation_ne s j i _ (fun h => hij h.symm)]
    exact hi
  · intro k hk
    simp only [Event.execute, PopulationImmigrationEvent.execute]
    exact getIsolation_modifyIsolation_ne s j k _ hk

/-- C13, witness: an Immigration of the seed from isolation 0 to isolation 1. -/
theorem C13_witness :
    ∃ child,
      ((Event.population (PopulationEvent.immigration Examples.seed 0 1 (1 / 2))).execute
          External.sample Examples.shipped.system Examples.draws).getIsolation ((1 : Nat) : Int) =
        some { Examples.freshIsolation [] with
          unitPopulations := (Examples.freshIsolation []).unitPopulations ++ [child] } ∧
      child.getLocationId = ((1 : Nat) : Int) ∧
      child.getParentUnitId = some Examples.seed.getId ∧
      ((Event.population (PopulationEvent.immigration Examples.seed 0 1 (1 / 2))).execute
          External.sample Examples.shipped.system Examples.draws).getIsolation ((0 : Nat) : Int) =
        some (Examples.freshIsolation [Examples.seed]) := by
  obtain ⟨child, h1, h2, h3, _, h5, _⟩ :=
    C13_immigration_appends_on_target External.sample Examples.shipped.system 0 1
      (Examples.freshIsolation [Examples.seed]) (Examples.freshIsolation []) Examples.seed
      (1 / 2) Examples.draws shipped_getIsolation_zero
      (by simp [Isolation.getUnitPopulations, Examples.freshIsolation])
      shipped_getIsolation_one (by decide)
  exact ⟨child, h1, h2, h3, h5⟩


/-- C14: executing a Death event for a population of id `k` on isolation `i`
yields a resident list in which no population has id `k`, which is a sublist
of the old one (order kept, populations unaltered) and keeps every population
of another id with its multiplicity; every other isolation is unchanged; and
if no resident has id `k` the whole System is unchanged. -/
theorem C14_death_removes_by_id (ext : External) (s : System) (i : Nat) (iso : Isolation)
    (p : UnitPopulation) (dr : Draws) (hi : s.getIsolation (i : Int) = some iso) :
    ∃ iso₁,
      ((Event.population (PopulationEvent.death p i)).execute ext s dr).getIsolation (i : Int) =
        some iso₁ ∧
      (∀ q ∈ iso₁.getUnitPopulations, q.getId ≠ p.getId) ∧
      List.Sublist iso₁.getUnitPopulations iso.getUnitPopulations ∧
      (∀ q : UnitPopulation, q.getId ≠ p.getId →
        iso₁.getUnitPopulations.count q = iso.getUnitPopulations.count q) ∧
      iso₁.nicheSpaces = iso.nicheSpaces ∧
      (∀ k : Nat, k ≠ i →
        ((Event.population (PopulationEvent.death p i)).execute ext s dr).getIsolation
          (k : Int) = s.getIsolation (k : Int)) ∧
      ((∀ q ∈ iso.getUnitPopulations, q.getId ≠ p.getId) →
        (Event.population (PopulationEvent.death p i)).execute ext s dr = s) := by
  refine ⟨iso.removeUnitPopulation p.getId, ?_, ?_, ?_, ?_, rfl, ?_, ?_⟩
  · simp only [Event.execute, PopulationDeathEvent.execute]
    exact getIsolation_modifyIsolation_eq s i _ iso hi
  · intro q hq
    simp only [Isolation.removeUnitPopulation, Isolation.getUnitPopulations,
      List.mem_filter, decide_eq_true_eq] at hq
    exact hq.2
  · exact List.filter_sublist _
  · intro q hq
    simp only [Isolation.removeUnitPopulation, Isolation.getUnitPopulations]
    rw [List.count_filter]
    simpa using hq
  · intro k hk
    simp only [Event.execute, PopulationDeathEvent.execute]
    exact getIsolation_modifyIsolation_ne s i k _ hk
  · intro habs
    simp only [Event.execute, PopulationDeathEvent.execute]
    apply modifyIsolation_fixed
    intro iso₂ h2
    rw [hi] at h2
    cases h2
    have hfilter : iso.unitPopulations.filter (fun q => q.getId ≠ p.getId) =
        iso.unitPopulations := by
      rw [List.filter_eq_self]
      intro q hq
      simpa using habs q hq
    simp only [Isolation.removeUnitPopulation, hfilter]

/-- C14, witness: the Death of the seed (id 0) on isolation 0 leaves no
population of id 0 there. -/
theorem C14_witness :
    ∃ iso₁,
      ((Event.population (PopulationEvent.death Examples.seed 0)).execute External.sample
          Examples.shipped.system Examples.draws).getIsolation ((0 : Nat) : Int) = some iso₁ ∧
      (∀ q ∈ iso₁.getUnitPopulations, q.getId ≠ Examples.seed.getId) ∧
      List.Sublist iso₁.getUnitPopulations
        (Examples.freshIsolation [Examples.seed]).getUnitPopulations := by
  obtain ⟨iso₁, h1, h2, h3, _⟩ :=
    C14_death_removes_by_id External.sample Examples.shipped.system 0
      (Examples.freshIsolation [Examples.seed]) Examples.seed Examples.draws
      shipped_getIsolation_zero
  exact ⟨iso₁, h1, h2, h3⟩

end System

/-- C15, counterexample: a population whose resource use is already `[1.1]`
(such as the child of a parent that underwent the resource-use mutation) is
left exactly as it was by a Mutation of kind 1: none of the four trait fields
takes a value different from before. -/
theorem C15_counterexample :
    Examples.specialist.getResourceUsePerNiche = [11 / 10] ∧
    PopulationMutationEvent.execute Examples.specialist 1 = Examples.specialist := by
  constructor <;> rfl

/-- C15 (amended): for every population `p` and every mutation kind in
`{0, 1, 2, 3}`, a Mutation leaves id, locationId and parentId as they were and
writes only the trait field selected by the kind (mobility for 0,
resourceUsePerNiche for 1, reproductivity for 2, intrinsicMutationRate for 3),
the other three trait fields keeping their values.  Kind 1 sets
resourceUsePerNiche to `[1.1]`, which differs from before exactly when it was
not `[1.1]` already.  Whether the field written by kind 0, 2 or 3 differs from
before is not part of the statement. -/
theorem C15_mutation_touches_one_trait (p : UnitPopulation) (kind : Int)
    (hk : kind = 0 ∨ kind = 1 ∨ kind = 2 ∨ kind = 3) :
    (PopulationMutationEvent.execute p kind).getId = p.getId ∧
    (PopulationMutationEvent.execute p kind).getLocationId = p.getLocationId ∧
    (PopulationMutationEvent.execute p kind).getParentUnitId = p.getParentUnitId ∧
    ((kind = 0 ∧
        (PopulationMutationEvent.execute p kind).getResourceUsePerNiche =
          p.getResourceUsePerNiche ∧
        (PopulationMutationEvent.execute p kind).getReproductivity = p.getReproductivity ∧
        (PopulationMutationEvent.execute p kind).getMutationRate = p.getMutationRate) ∨
     (kind = 1 ∧
        (PopulationMutationEvent.execute p kind).getResourceUsePerNiche = [11 / 10] ∧
        ((PopulationMutationEvent.execute p kind).getResourceUsePerNiche ≠
            p.getResourceUsePerNiche ↔ p.getResourceUsePerNiche ≠ [11 / 10]) ∧
        (PopulationMutationEvent.execute p kind).getMobility = p.getMobility ∧
        (PopulationMutationEvent.execute p kind).getReproductivity = p.getReproductivity ∧
        (PopulationMutationEvent.execute p kind).getMutationRate = p.getMutationRate) ∨
     (kind = 2 ∧
        (PopulationMutationEvent.execute p kind).getMobility = p.getMobility ∧
        (PopulationMutationEvent.execute p kind).getResourceUsePerNiche =
          p.getResourceUsePerNiche ∧
        (PopulationMutationEvent.execute p kind).getMutationRate = p.getMutationRate) ∨
     (kind = 3 ∧
        (PopulationMutationEvent.execute p kind).getMobility = p.getMobility ∧
        (PopulationMutationEvent.execute p kind).getResourceUsePerNiche =
          p.getResourceUsePerNiche ∧
        (PopulationMutationEvent.execute p kind).getReproductivity = p.getReproductivity)) := by
  obtain ⟨h1, h2, h3⟩ := mutation_execute_identity p kind
  refine ⟨h1, h2, h3, ?_⟩
  rcases hk with rfl | rfl | rfl | rfl
  · exact Or.inl ⟨rfl, rfl, rfl, rfl⟩
  · refine Or.inr (Or.inl ⟨rfl, rfl, ?_, rfl, rfl, rfl⟩)
    simp only [PopulationMutationEvent.execute, UnitPopulation.setResourceUsePerNiche,
      UnitPopulation.getResourceUsePerNiche]
    norm_num
    exact ⟨fun h e => h e.symm, fun h e => h e.symm⟩
  · exact Or.inr (Or.inr (Or.inl ⟨rfl, rfl, rfl, rfl⟩))
  · exact Or.inr (Or.inr (Or.inr ⟨rfl, rfl, rfl, rfl⟩))

/-- C15, witness: the seed under a Mutation of kind 1: its id and its mobility
are those of the seed. -/
theorem C15_witness :
    ((1 : Int) = 0 ∨ (1 : Int) = 1 ∨ (1 : Int) = 2 ∨ (1 : Int) = 3) ∧
    (PopulationMutationEvent.execute Examples.seed 1).getId = Examples.seed.getId ∧
    (PopulationMutationEvent.execute Examples.seed 1).getMobility =
      Examples.seed.getMobility :=
  ⟨Or.inr (Or.inl rfl),
   (C15_mutation_touches_one_trait Examples.seed 1 (Or.inr (Or.inl rfl))).1,
   (C15_mutation_touches_one_trait Examples.seed 1 (Or.inr (Or.inl rfl))).2.2.2.elim
     (fun h => absurd h.1 (by decide))
     (fun h => h.elim (fun h1 => h1.2.2.2.1)
       (fun h => h.elim (fun h2 => absurd h2.1 (by decide))
         (fun h3 => absurd h3.1 (by decide))))⟩

namespace System

/-- C16 (evaluation at the failing input): starting from `System(3, 0.5, 0.2)`,
two Birth events of the seed on isolation 0 (each on a resident, coin not
firing) lead to a reachable System whose populations carry the ids 0, 1, 1 in
creation order: the two children share id 1 (`parent id + 1`), so ids are not
unique and the second child's id is not greater than the first child's. -/
theorem C16_birth_reuses_child_id :
    System.new External.sample 3 (1 / 2) (1 / 5) = some Examples.shipped.system ∧
    EventReachable External.sample Examples.twoBirths ∧
    Examples.twoBirths.populationIds = [0, 1, 1] ∧
    ¬ Examples.twoBirths.populationIds.Nodup := by
  have hids : Examples.twoBirths.populationIds = [0, 1, 1] := by
    norm_num [Examples.twoBirths, Examples.oneBirth, populationIds, Event.execute,
      PopulationBirthEvent.execute, maybeMutate, modifyIsolation, Examples.shipped,
      Examples.draws, Isolation.addUnitPopulation, Examples.freshIsolation, Examples.seed,
      initialPopulation, UnitPopulation.getLocationId, spawnChild, UnitPopulation.getId]
  have hres : Examples.seed ∈ Director.residents Examples.oneBirth 0 := by
    norm_num [Director.residents, Examples.oneBirth, Event.execute,
      PopulationBirthEvent.execute, maybeMutate, modifyIsolation, getIsolation,
      Examples.shipped, Examples.draws, Isolation.addUnitPopulation, Examples.freshIsolation,
      Isolation.getUnitPopulations]
  refine ⟨rfl, ?_, hids, by rw [hids]; decide⟩
  exact EventReachable.executed _ _ _
    (EventReachable.executed _ _ _ (EventReachable.constructed 3 (1 / 2) (1 / 5) _ rfl)
      seed_resident_shipped) hres


/-- C17: when the two absent Isolation setters keep the resident list (as the
spec describes them), in every System reachable from a construction by any
sequence of event executions (Birth, Death, Immigration, Mutation,
ResourceAvailabilityChange, BarrierThresholdChange, each on a resident of its
isolation), every population held in the resident list of isolation `k` has
`locationId = k`. -/
theorem C17_residents_carry_isolation_id (ext : External) (hext : ext.KeepsResidents)
    (s : System) (hr : EventReachable ext s) (k : Nat) (iso : Isolation)
    (hk : s.getIsolation (k : Int) = some iso) (p : UnitPopulation)
    (hp : p ∈ iso.getUnitPopulations) : p.getLocationId = (k : Int) := by
  exact eventReachable_locationInvariant ext hext s hr k iso hk p hp

/-- C17, witness: after an Immigration of the seed to isolation 1, the child
held by isolation 1 has `locationId = 1`. -/
theorem C17_witness :
    Examples.afterImmigration.getIsolation ((1 : Nat) : Int) =
      some (Examples.freshIsolation [spawnChild Examples.seed 1]) ∧
    (spawnChild Examples.seed 1).getLocationId = ((1 : Nat) : Int) :=
  have hk : Examples.afterImmigration.getIsolation ((1 : Nat) : Int) =
      some (Examples.freshIsolation [spawnChild Examples.seed 1]) := by
    norm_num [Examples.afterImmigration, Event.execute, PopulationImmigrationEvent.execute,
      maybeMutate, modifyIsolation, getIsolation, Examples.shipped, Examples.draws,
      Isolation.addUnitPopulation, Examples.freshIsolation, isolationId]
  ⟨hk, C17_residents_carry_isolation_id External.sample sample_keepsResidents
    Examples.afterImmigration
    (EventReachable.executed _ _ _ (EventReachable.constructed 3 (1 / 2) (1 / 5) _ rfl)
      ⟨seed_resident_shipped, by simp [getNumberOfIsolations, Examples.shipped]⟩)
    1 _ hk (spawnChild Examples.seed 1)
    (by simp [Isolation.getUnitPopulations, Examples.freshIsolation])⟩


/-- C18: for every `N ≥ 1` and rates `b`, `d`, `System(N, b, d)` is constructed
with exactly `N` isolations, all with the same default niche capacities, an
`N × N` barrier matrix with every entry 1, isolation 0 holding exactly one
population (id 0, locationId 0, no parent), every other isolation holding none,
and `nextPopulationId = 1`. -/
theorem C18_construction (ext : External) (n : Int) (b d : ℚ) (hn : 1 ≤ n) :
    ∃ s, System.new ext n b d = some s ∧
      s.getNumberOfIsolations = n.toNat ∧
      (∀ iso ∈ s.isolations, iso.nicheSpaces = ext.nicheSpacesOfResources [10, 10, 10]) ∧
      s.barrierThresholds = List.replicate n.toNat (List.replicate n.toNat 1) ∧
      (∃ p, s.isolations[0]? =
          some { nicheSpaces := ext.nicheSpacesOfResources [10, 10, 10], unitPopulations := [p] } ∧
        p.getId = 0 ∧ p.getLocationId = 0 ∧ p.getParentUnitId = none) ∧
      (∀ k, 0 < k → k < n.toNat → s.isolations[k]? =
          some { nicheSpaces := ext.nicheSpacesOfResources [10, 10, 10], unitPopulations := [] }) ∧
      s.nextPopulationId = 1 ∧ s.baseBirthRate = b ∧ s.baseDeathRate = d := by
  have hpos : ¬ n ≤ 0 := by omega
  have hm : 0 < n.toNat := by omega
  refine ⟨_, by unfold System.new; rw [if_neg hpos], ?_, ?_, rfl, ?_, ?_, rfl, rfl, rfl⟩
  · simp [getNumberOfIsolations, spawnInitialPopulation]
  · intro iso hiso
    obtain ⟨k, hk⟩ := List.mem_iff_getElem?.mp hiso
    simp only [spawnInitialPopulation, List.getElem?_modify, List.getElem?_replicate] at hk
    by_cases hkn : k < n.toNat
    · simp only [hkn, if_true, Option.map_eq_map, Option.map_some', Option.some.injEq] at hk
      subst hk
      split <;> rfl
    · simp [hkn] at hk
  · refine ⟨initialPopulation 0, ?_, rfl, rfl, rfl⟩
    simp [spawnInitialPopulation, List.getElem?_modify, List.getElem?_replicate, hm,
      Isolation.addUnitPopulation]
  · intro k hk0 hkn
    have hne : ¬ 0 = k := by omega
    simp [spawnInitialPopulation, List.getElem?_modify, List.getElem?_replicate, hkn, hne]

/-- C18, witness: `System(3, 0.5, 0.2)`. -/
theorem C18_witness :
    ∃ s, System.new External.sample 3 (1 / 2) (1 / 5) = some s ∧
      s.getNumberOfIsolations = (3 : Int).toNat ∧
      (∀ iso ∈ s.isolations,
        iso.nicheSpaces = External.sample.nicheSpacesOfResources [10, 10, 10]) ∧
      s.barrierThresholds =
        List.replicate (3 : Int).toNat (List.replicate (3 : Int).toNat 1) ∧
      (∃ p, s.isolations[0]? =
          some { nicheSpaces := External.sample.nicheSpacesOfResources [10, 10, 10],
                 unitPopulations := [p] } ∧
        p.getId = 0 ∧ p.getLocationId = 0 ∧ p.getParentUnitId = none) ∧
      (∀ k, 0 < k → k < (3 : Int).toNat → s.isolations[k]? =
          some { nicheSpaces := External.sample.nicheSpacesOfResources [10, 10, 10],
                 unitPopulations := [] }) ∧
      s.nextPopulationId = 1 ∧ s.baseBirthRate = 1 / 2 ∧ s.baseDeathRate = 1 / 5 :=
  C18_construction External.sample 3 (1 / 2) (1 / 5) (by norm_num)

end System

namespace Director

/-- C19 (evaluation of the code): for every state with `N` isolations the
rebuilt catalog holds exactly `2N` isolation events, one
ResourceAvailabilityChange and one BarrierThresholdChange per isolation,
whatever the residents; but each is stored with propensity 0, the truncation
of 0.1 and of 0.05, not with 0.1 and 0.05. -/
theorem C19_isolation_entries_stored_as_zero (d : Director) :
    (computeEventRates d).isolationEvents =
      (List.range d.system.getNumberOfIsolations).flatMap (fun i =>
        [((0 : Int), IsolationEvent.resourceAvailabilityChange i [10, 10, 10]),
         ((0 : Int), IsolationEvent.barrierThresholdChange i (1 / 2))]) ∧
    (computeEventRates d).isolationEvents.length = 2 * d.system.getNumberOfIsolations ∧
    ((doubleToInt (1 / 10) : ℚ) ≠ 1 / 10) ∧ ((doubleToInt (1 / 20) : ℚ) ≠ 1 / 20) := by
  have hfun : isolationEntries = fun i =>
      [((0 : Int), IsolationEvent.resourceAvailabilityChange i [10, 10, 10]),
       ((0 : Int), IsolationEvent.barrierThresholdChange i (1 / 2))] := by
    funext i
    simp only [isolationEntries, doubleToInt_tenth, doubleToInt_twentieth]
  have hlen : ∀ n : Nat, ((List.range n).flatMap isolationEntries).length = 2 * n := by
    intro n
    induction n with
    | zero => simp
    | succ n ih =>
        rw [List.range_succ, List.flatMap_append, List.length_append, ih]
        simp [isolationEntries]
        omega
  refine ⟨?_, hlen _, ?_, ?_⟩
  · simp only [computeEventRates, hfun]
  · rw [doubleToInt_tenth]; norm_num
  · rw [doubleToInt_twentieth]; norm_num


/-- C20 (evaluation at the failing input): for `Director(3, 0.5, 0.2)` the total
rate that `sampleNextEvent` computes from the rebuilt catalog is 0, while the
sum of the propensities the spec prescribes for that state is
0.5 + 0.2 + 3 × (0.1 + 0.05) = 1.15. -/
theorem C20_total_rate_is_truncated :
    Director.new External.sample 3 (1 / 2) (1 / 5) = some Examples.shipped ∧
    totalRate (computeEventRates Examples.shipped) = 0 ∧
    specTotalPropensity Examples.shipped = 23 / 20 := by
  refine ⟨rfl, ?_, ?_⟩
  · norm_num [totalRate, sumRates, computeEventRates, residents, System.getIsolation,
      System.getNumberOfIsolations, populationEntries, immigrationEntries,
      System.getBarrierThreshold, Isolation.getUnitPopulations, isolationEntries,
      Examples.shipped, Examples.freshIsolation, List.range_succ, doubleToInt]
  · norm_num [specTotalPropensity, specPopulationPropensity, residents, System.getIsolation,
      System.getNumberOfIsolations, System.getBarrierThreshold, Isolation.getUnitPopulations,
      Examples.shipped, Examples.freshIsolation, List.range_succ]

end Director

/-- C21 (evaluation at the failing input): in the catalog of
`Director(3, 0.5, 0.2)` the Birth event of the seed carries `mutationRate` 1/2
(the base birth rate), while the seed's mutationRate trait is 1/100.  Executed
with the coin draw 3/10, which is not below 1/100, the child is mutated all the
same (kind 0: mobility 1/10 + 1/10), because 3/10 is below 1/2. -/
theorem C21_coin_compares_with_base_birth_rate :
    (Director.computeEventRates Examples.shipped).populationEvents =
      [((0 : Int), PopulationEvent.birth Examples.seed 0 (1 / 2)),
       ((0 : Int), PopulationEvent.death Examples.seed 0)] ∧
    Examples.seed.getMutationRate = 1 / 100 ∧
    ¬ (Examples.drawsCoinThreeTenths.dis < Examples.seed.getMutationRate) ∧
    ((Event.population (PopulationEvent.birth Examples.seed 0 (1 / 2))).execute External.sample
        Examples.shipped.system Examples.drawsCoinThreeTenths).getIsolation 0 =
      some (Examples.freshIsolation
        [Examples.seed, (spawnChild Examples.seed 0).setMobility (1 / 5)]) := by
  refine ⟨?_, rfl, ?_, ?_⟩
  · norm_num [Director.computeEventRates, Director.residents, System.getIsolation,
      System.getNumberOfIsolations, Director.populationEntries, Director.immigrationEntries,
      System.getBarrierThreshold, Isolation.getUnitPopulations, Examples.shipped,
      Examples.freshIsolation, List.range_succ, doubleToInt]
  · norm_num [Examples.drawsCoinThreeTenths, Examples.seed, System.initialPopulation,
      UnitPopulation.getMutationRate]
  · norm_num [Event.execute, PopulationBirthEvent.execute, maybeMutate,
      PopulationMutationEvent.execute, System.modifyIsolation, System.getIsolation,
      Examples.shipped, Examples.drawsCoinThreeTenths, Isolation.addUnitPopulation,
      Examples.freshIsolation, Examples.seed, System.initialPopulation, spawnChild,
      UnitPopulation.getLocationId, UnitPopulation.setMobility, UnitPopulation.getMobility,
      UnitPopulation.getId, UnitPopulation.getMutationRate,
      UnitPopulation.getResourceUsePerNiche, UnitPopulation.getReproductivity]

/-- C22: for every population `p`, a Mutation of kind 0 sets mobility to the old
mobility + 0.1, kind 1 sets resourceUsePerNiche to the one-element sequence
`[1.1]` whatever it was, kind 2 sets reproductivity to the old value + 0.1,
kind 3 sets intrinsicMutationRate to the old rate + 0.01, each leaving the
other fields as they were; and every kind in `0..3` is exactly one of these
four cases. -/
theorem C22_mutation_kinds (p : UnitPopulation) :
    PopulationMutationEvent.execute p 0 = { p with mobility := p.mobility + 1 / 10 } ∧
    PopulationMutationEvent.execute p 1 = { p with resourceUsePerNiche := [11 / 10] } ∧
    PopulationMutationEvent.execute p 2 = { p with reproductivity := p.reproductivity + 1 / 10 } ∧
    PopulationMutationEvent.execute p 3 =
      { p with intrinsicMutationRate := p.intrinsicMutationRate + 1 / 100 } ∧
    (PopulationMutationEvent.execute p 1).getResourceUsePerNiche.length = 1 ∧
    (∀ kind : Int, 0 ≤ kind → kind ≤ 3 →
      (kind = 0 ∧ PopulationMutationEvent.execute p kind =
          { p with mobility := p.mobility + 1 / 10 }) ∨
      (kind = 1 ∧ PopulationMutationEvent.execute p kind =
          { p with resourceUsePerNiche := [11 / 10] }) ∨
      (kind = 2 ∧ PopulationMutationEvent.execute p kind =
          { p with reproductivity := p.reproductivity + 1 / 10 }) ∨
      (kind = 3 ∧ PopulationMutationEvent.execute p kind =
          { p with intrinsicMutationRate := p.intrinsicMutationRate + 1 / 100 })) := by
  refine ⟨rfl, rfl, rfl, rfl, rfl, ?_⟩
  intro kind h0 h3
  have hk : kind = 0 ∨ kind = 1 ∨ kind = 2 ∨ kind = 3 := by omega
  rcases hk with rfl | rfl | rfl | rfl
  · exact Or.inl ⟨rfl, rfl⟩
  · exact Or.inr (Or.inl ⟨rfl, rfl⟩)
  · exact Or.inr (Or.inr (Or.inl ⟨rfl, rfl⟩))
  · exact Or.inr (Or.inr (Or.inr ⟨rfl, rfl⟩))

/-- C22, witness: the seed (resource use of length 3) under kind 1, and kind 2
as a kind in `0..3`. -/
theorem C22_witness :
    Examples.seed.getResourceUsePerNiche.length = 3 ∧
    (PopulationMutationEvent.execute Examples.seed 1).getResourceUsePerNiche = [11 / 10] ∧
    (PopulationMutationEvent.execute Examples.seed 2).getReproductivity =
      Examples.seed.getReproductivity + 1 / 10 := by
  refine ⟨rfl,
    congrArg UnitPopulation.getResourceUsePerNiche (C22_mutation_kinds Examples.seed).2.1, ?_⟩
  rcases (C22_mutation_kinds Examples.seed).2.2.2.2.2 2 (by norm_num) (by norm_num) with
    h | h | h | h
  · exact absurd h.1 (by norm_num)
  · exact absurd h.1 (by norm_num)
  · rw [h.2]; rfl
  · exact absurd h.1 (by norm_num)

namespace Director

/-- C23: the event log is chronological.  Each of the four log calls of the
Observer appends exactly one record, stamped with the time it is given, as the
last element of the history, the earlier records staying as they were.  For every run
of the loop of `runSimulation` on draws with non-negative waiting times, the
history afterwards is the history before followed by the records of the run,
whose times are non-decreasing in log order and are each the clock value after
an iteration, that is the clock before it plus that iteration's waiting time.
A run that returns ends in exactly that state. -/
theorem C23_log_is_chronological (ext : External) :
    (∀ (o : Observer) (time : ℚ) (a b c : Int),
      (∃ r, (o.logBirthEvent time a b c).eventHistory = o.eventHistory ++ [r] ∧
        r.eventTime = time) ∧
      (∃ r, (o.logDeathEvent time a).eventHistory = o.eventHistory ++ [r] ∧
        r.eventTime = time) ∧
      (∃ r, (o.logImmigrationEvent time a b c).eventHistory = o.eventHistory ++ [r] ∧
        r.eventTime = time) ∧
      (∀ (property : String) (x y : ℚ),
        ∃ r, (o.logMutationEvent ext time a b property x y).eventHistory =
          o.eventHistory ++ [r] ∧ r.eventTime = time)) ∧
    (∀ (d : Director) (t : ℚ) (dr : Draws), (loopBody ext d t dr).2 = t + dr.waitingTime) ∧
    (∀ (d : Director) (maxTime : ℚ) (draws : List Draws),
      (∀ dr ∈ draws, 0 ≤ dr.waitingTime) →
      ∃ new : List EventRecord,
        (runPrefix ext maxTime d 0 draws).1.observer.eventHistory =
          d.observer.eventHistory ++ new ∧
        (new.map EventRecord.eventTime).Pairwise (fun x y => x ≤ y) ∧
        (∀ r ∈ new, r.eventTime ∈ iterationClocks ext maxTime d 0 draws) ∧
        (∀ d₁, runSimulation ext d maxTime draws = some d₁ →
          d₁ = (runPrefix ext maxTime d 0 draws).1)) := by
  refine ⟨?_, fun d t dr => loopBody_snd ext d t dr, ?_⟩
  · intro o time a b c
    exact ⟨⟨_, rfl, rfl⟩, ⟨_, rfl, rfl⟩, ⟨_, rfl, rfl⟩, fun _ _ _ => ⟨_, rfl, rfl⟩⟩
  · intro d maxTime draws hw
    obtain ⟨new, h1, h2, _⟩ := runPrefix_sorted ext maxTime draws hw d 0
    obtain ⟨new₂, g1, _, _, g4⟩ := runPrefix_history ext maxTime draws d 0
    have heq : new₂ = new := List.append_cancel_left (g1.symm.trans h1)
    subst heq
    refine ⟨new₂, h1, h2, g4, ?_⟩
    intro d₁ hrun
    unfold runSimulation at hrun
    cases hx : runLoop ext maxTime d 0 draws with
    | none => rw [hx] at hrun; cases hrun
    | some x =>
        rw [hx] at hrun
        simp only [Option.map_some', Option.some.injEq] at hrun
        rw [runLoop_eq_runPrefix ext maxTime draws d 0 x hx, hrun]

/-- C23, witness: the shipped Director run for `maxTime = 100` on one draw of
waiting time 100. -/
theorem C23_witness :
    ∃ new : List EventRecord,
      (runPrefix External.sample 100 Examples.shipped 0 [Examples.draws]).1.observer.eventHistory =
        Examples.shipped.observer.eventHistory ++ new ∧
      (new.map EventRecord.eventTime).Pairwise (fun x y => x ≤ y) ∧
      (∀ r ∈ new, r.eventTime ∈
        iterationClocks External.sample 100 Examples.shipped 0 [Examples.draws]) ∧
      (∀ d₁, runSimulation External.sample Examples.shipped 100 [Examples.draws] = some d₁ →
        d₁ = (runPrefix External.sample 100 Examples.shipped 0 [Examples.draws]).1) :=
  (C23_log_is_chronological External.sample).2.2 Examples.shipped 100 [Examples.draws]
    (by
      intro dr hdr
      rw [List.mem_singleton.mp hdr]
      norm_num [Examples.draws])


/-- C24: for every state whose base birth and death rates lie in `[0, 1)` and
whose barrier entries lie in `[0, 1]`, every propensity stored by
`computeEventRates` (Birth, Death, Immigration, and the 0.1 and 0.05 of the
isolation events) is 0, and so is the total rate that `sampleNextEvent`
computes. -/
theorem C24_stored_propensities_all_zero (d : Director)
    (hb0 : 0 ≤ d.baseBirthRate) (hb1 : d.baseBirthRate < 1)
    (hd0 : 0 ≤ d.baseDeathRate) (hd1 : d.baseDeathRate < 1)
    (hbar : ∀ i j, 0 ≤ d.system.getBarrierThreshold i j ∧ d.system.getBarrierThreshold i j ≤ 1) :
    (∀ x ∈ (computeEventRates d).populationEvents, x.1 = 0) ∧
    (∀ x ∈ (computeEventRates d).isolationEvents, x.1 = 0) ∧
    totalRate (computeEventRates d) = 0 := by
  have hpop : ∀ x ∈ (computeEventRates d).populationEvents, x.1 = 0 := by
    intro x hx
    obtain ⟨i, _, p, _, hmem⟩ := (mem_populationEvents d x).1 hx
    simp only [populationEntries, List.mem_cons] at hmem
    rcases hmem with rfl | rfl | hmem
    · exact doubleToInt_eq_zero _ hb0 hb1
    · exact doubleToInt_eq_zero _ hd0 hd1
    · obtain ⟨j, _, _, hlt, rfl⟩ := (mem_immigrationEntries _ _ _ _ _).1 hmem
      have h1 := (hbar i j).1
      apply doubleToInt_eq_zero
      · exact mul_nonneg hb0 (by linarith)
      · nlinarith
  have hiso : ∀ x ∈ (computeEventRates d).isolationEvents, x.1 = 0 := by
    intro x hx
    simp only [computeEventRates, List.mem_flatMap, List.mem_range, isolationEntries,
      List.mem_cons, List.mem_singleton, List.not_mem_nil, or_false] at hx
    obtain ⟨i, _, rfl | rfl⟩ := hx
    · exact doubleToInt_tenth
    · exact doubleToInt_twentieth
  refine ⟨hpop, hiso, ?_⟩
  rw [totalRate, sumRates_of_zero _ _ hpop, sumRates_of_zero _ _ hiso]

/-- C24, witness: the shipped configuration `Director(3, 0.5, 0.2)`. -/
theorem C24_witness :
    Director.new External.sample 3 (1 / 2) (1 / 5) = some Examples.shipped ∧
    (∀ x ∈ (computeEventRates Examples.shipped).populationEvents, x.1 = 0) ∧
    (∀ x ∈ (computeEventRates Examples.shipped).isolationEvents, x.1 = 0) ∧
    totalRate (computeEventRates Examples.shipped) = 0 :=
  ⟨rfl, C24_stored_propensities_all_zero Examples.shipped
    (by norm_num [Examples.shipped]) (by norm_num [Examples.shipped])
    (by norm_num [Examples.shipped]) (by norm_num [Examples.shipped])
    (fun i j => by
      rw [(System.new_square External.sample 3 (1 / 2) (1 / 5) Examples.shipped.system rfl).2 i j]
      norm_num)⟩


/-- C25: for every catalog and threshold `u`, the event returned by
`sampleNextEvent` is the entry at the one position where the walk stops; an
entry with stored propensity 0 is at that position only if it is the very
first entry and `u ≤ 0`, so a zero-propensity entry at a later position is
never selected, and when `u > 0` the selected entry has strictly positive
propensity.  (This holds for every catalog, in particular for those with
non-negative propensities.) -/
theorem C25_zero_propensity_selected_only_first (d : Director) (w u : ℚ) :
    (∀ e, sampleNextEvent d w u = (w, some e) →
      ∃ k r, (catalog d)[k]? = some (r, e) ∧ SelectedAt d u k) ∧
    (∀ k₁ k₂, SelectedAt d u k₁ → SelectedAt d u k₂ → k₁ = k₂) ∧
    (∀ (k : Nat) (r : Int) (e : Event), (catalog d)[k]? = some (r, e) → SelectedAt d u k →
      (r = 0 → k = 0 ∧ u ≤ 0) ∧ (0 < u → 0 < r)) ∧
    (∀ k e, 0 < k → (catalog d)[k]? = some (0, e) → ¬ SelectedAt d u k) := by
  have hkey : ∀ (k : Nat) (r : Int) (e : Event), (catalog d)[k]? = some (r, e) →
      SelectedAt d u k →
      (k = 0 ∧ u ≤ (r : ℚ)) ∨ (0 < k ∧ (0 : ℚ) < (r : ℚ)) := by
    intro k r e hk hsel
    obtain ⟨_, hle, hmin⟩ := hsel
    cases k with
    | zero =>
        left
        rw [cumulative_zero _ r e hk] at hle
        exact ⟨rfl, hle⟩
    | succ k =>
        right
        rw [cumulative_succ _ k r e hk] at hle
        have := hmin k (Nat.lt_succ_self k)
        exact ⟨Nat.succ_pos k, by linarith⟩
  have hmain : ∀ (k : Nat) (r : Int) (e : Event), (catalog d)[k]? = some (r, e) →
      SelectedAt d u k →
      (r = 0 → k = 0 ∧ u ≤ 0) ∧ (0 < u → 0 < r) := by
    intro k r e hk hsel
    rcases hkey k r e hk hsel with ⟨hk0, hur⟩ | ⟨_, hr⟩
    · refine ⟨fun h0 => ⟨hk0, by rw [h0] at hur; simpa using hur⟩, fun hu => ?_⟩
      have : (0 : ℚ) < (r : ℚ) := lt_of_lt_of_le hu hur
      exact_mod_cast this
    · refine ⟨fun h0 => ?_, fun _ => by exact_mod_cast hr⟩
      rw [h0] at hr
      simp at hr
  refine ⟨?_, ?_, hmain, ?_⟩
  · intro e he
    rw [sampleNextEvent_eq_scan] at he
    have hscan : scanEvents u 0 (catalog d) = Sum.inl e := by
      cases hs : scanEvents u 0 (catalog d) with
      | inl e₁ =>
          rw [hs] at he
          simp only [Sum.getLeft?_inl, Prod.mk.injEq, Option.some.injEq, true_and] at he
          rw [he]
      | inr c =>
          rw [hs] at he
          simp at he
    obtain ⟨k, r, hk, hle, hmin⟩ := (scanEvents_spec u (catalog d) 0).1 e hscan
    refine ⟨k, r, hk, ?_, hle, hmin⟩
    by_contra hge
    rw [List.getElem?_eq_none (by omega)] at hk
    cases hk
  · intro k₁ k₂ h1 h2
    by_contra hne
    rcases Nat.lt_or_gt_of_ne hne with hlt | hlt
    · exact absurd h1.2.1 (not_le.mpr (h2.2.2 k₁ hlt))
    · exact absurd h2.2.1 (not_le.mpr (h1.2.2 k₂ hlt))
  · intro k e hk hget hsel
    have := ((hmain k 0 e hget hsel).1 rfl).1
    omega

/-- C25, witness: in the one-isolation catalog (propensities 1, 0, 0, 0) the
walk for `u = 1/2` stops at position 0, not at the zero-propensity Death entry
at position 1. -/
theorem C25_witness :
    (catalog Examples.oneIsolation)[1]? =
      some (0, Event.population (PopulationEvent.death Examples.seed 0)) ∧
    ¬ SelectedAt Examples.oneIsolation (1 / 2) 1 :=
  have h1 : (catalog Examples.oneIsolation)[1]? =
      some (0, Event.population (PopulationEvent.death Examples.seed 0)) := by
    simp [catalog, Examples.oneIsolation]
  ⟨h1, (C25_zero_propensity_selected_only_first Examples.oneIsolation 1 (1 / 2)).2.2.2 1 _
    (by norm_num) h1⟩

end Director

end Fusion
